import Mathlib

/-!
# Resource set planning of the cluster builder

A shallow embedding of `pkg/resourceset/cluster_builder.go`: the two methods
`ClusterBuilder.ResourceBuilders` and `ClusterBuilder.ResourcePruners`, which decide
which resource builders apply to a `TemporalCluster` and which resources are pruned.

Conventions of the embedding.

* A Go pointer field that may be `nil` is an `Option`.
* `ResourceBuilders` returns `([]resource.Builder, error)`; here it returns
  `Except ε (List (Builder σ))`, where `ε` is the type of Go errors.
* Every builder constructor of the source receives `b.Instance` and `b.Scheme`; both are
  the same for every builder made during one call, so a builder value here records the
  constructor that made it (`kind`), the service name and the per-service specification
  it was given.
* The per-service specification type (`*v1beta1.ServiceSpec`) is not declared in this
  file of the repository; it is the type parameter `σ`.
-/

namespace ResourceSet

/-! ## Data model -/

/-- The service names of `primitives` used by the cluster builder
(`primitives.FrontendService`, ...). The conversion `string(service)` is injective on
them, so builders keep the name itself. -/
inductive ServiceName
  | FrontendService
  | HistoryService
  | MatchingService
  | WorkerService
  | InternalFrontendService
  deriving DecidableEq, Repr

/-- The provider of `v1beta1.MTLSSpec`. The source compares it with
`v1beta1.IstioMTLSProvider`; the certificate-authority provider is the one tested by
`MTLSWithCertManagerEnabled`. The Go type is a string, so any other value is possible. -/
inductive MTLSProvider
  | CertManagerMTLSProvider
  | IstioMTLSProvider
  | otherProvider (name : String)
  deriving DecidableEq, Repr

/-- The mTLS block. The two flags are the per-scope enable flags for internode and
frontend traffic. -/
structure MTLSSpec where
  Provider : MTLSProvider
  InternodeFlag : Bool
  FrontendFlag : Bool
  deriving DecidableEq, Repr

/-- Modelled from the spec: the method `MTLSSpec.InternodeEnabled` is not in this file;
the internode scope is on exactly when its per-scope enable flag is. -/
def MTLSSpec.InternodeEnabled (m : MTLSSpec) : Bool := m.InternodeFlag

/-- Modelled from the spec: the method `MTLSSpec.FrontendEnabled` is not in this file;
the frontend scope is on exactly when its per-scope enable flag is. -/
def MTLSSpec.FrontendEnabled (m : MTLSSpec) : Bool := m.FrontendFlag

/-- The service-monitor block of the scrape configuration. -/
structure ServiceMonitorSpec where
  Enabled : Bool
  deriving DecidableEq, Repr

/-- The scrape configuration block of the prometheus block. -/
structure PrometheusScrapeConfig where
  ServiceMonitor : Option ServiceMonitorSpec
  deriving DecidableEq, Repr

/-- The prometheus block of the metrics block. -/
structure PrometheusSpec where
  ScrapeConfig : Option PrometheusScrapeConfig
  deriving DecidableEq, Repr

/-- The metrics block. -/
structure MetricsSpec where
  Enabled : Bool
  Prometheus : Option PrometheusSpec
  deriving DecidableEq, Repr

/-- Modelled from the spec: the method `MetricsSpec.IsEnabled` is not in this file; it is
called on a pointer that may be nil, an absent block counts as disabled, a present one is
enabled exactly when its enabled flag is. -/
def MetricsSpec.IsEnabled (m : Option MetricsSpec) : Bool :=
  match m with
  | none => false
  | some s => s.Enabled

/-- The ingress sub-block of the UI block; only its presence is read. -/
structure UIIngressSpec where
  deriving DecidableEq, Repr

/-- The UI block. -/
structure UISpec where
  Enabled : Bool
  Ingress : Option UIIngressSpec
  deriving DecidableEq, Repr

/-- The admin-tools block. -/
structure AdminToolsSpec where
  Enabled : Bool
  deriving DecidableEq, Repr

/-- The dynamic configuration block; only its presence is read. -/
structure DynamicConfigSpec where
  deriving DecidableEq, Repr

/-- The internal-frontend block of the services block. -/
structure InternalFrontendServiceSpec where
  Enabled : Bool
  deriving DecidableEq, Repr

/-- Modelled from the spec: the method `InternalFrontendServiceSpec.IsEnabled` is not in
this file; it is called on a pointer that may be nil, an absent block counts as disabled,
a present one is enabled exactly when its enabled flag is. -/
def InternalFrontendServiceSpec.IsEnabled (s : Option InternalFrontendServiceSpec) : Bool :=
  match s with
  | none => false
  | some x => x.Enabled

/-- The services block. Modelled from the spec: the method `ServicesSpec.GetServiceSpec`
is not in this file; it resolves the per-service specification of a service name or
fails with a lookup error, and is kept as the field `GetServiceSpec`. -/
structure ServicesSpec (σ ε : Type) where
  InternalFrontend : Option InternalFrontendServiceSpec
  GetServiceSpec : ServiceName → Except ε σ

/-- The fields of `TemporalCluster.Spec` read by the cluster builder. -/
structure TemporalClusterSpec (σ ε : Type) where
  Services : ServicesSpec σ ε
  MTLS : Option MTLSSpec
  Metrics : Option MetricsSpec
  DynamicConfig : Option DynamicConfigSpec
  UI : Option UISpec
  AdminTools : Option AdminToolsSpec

/-- The cluster object `v1beta1.TemporalCluster`. -/
structure TemporalCluster (σ ε : Type) where
  Spec : TemporalClusterSpec σ ε

/-- Modelled from the spec: the method `TemporalCluster.MTLSWithCertManagerEnabled` is not
in this file; it holds exactly when the mTLS block is present and its provider is the
certificate-authority provider. -/
def TemporalCluster.MTLSWithCertManagerEnabled {σ ε : Type} (c : TemporalCluster σ ε) : Bool :=
  match c.Spec.MTLS with
  | none => false
  | some m => decide (m.Provider = MTLSProvider.CertManagerMTLSProvider)

/-- The receiver of both methods. The `Scheme` field of the source is handed unchanged to
every builder constructor and is not read, so it is left out. -/
structure ClusterBuilder (σ ε : Type) where
  Instance : TemporalCluster σ ε

/-- One constructor of the source per kind: `resource.NewConfigmapBuilder` is `Configmap`,
`istio.NewPeerAuthenticationBuilder` is `PeerAuthentication`, and so on. -/
inductive Kind
  | Configmap
  | FrontendService
  | ServiceAccount
  | Deployment
  | HeadlessService
  | PeerAuthentication
  | DestinationRule
  | ServiceMonitor
  | DynamicConfigmap
  | MTLSBootstrapIssuer
  | MTLSRootCACertificate
  | MTLSRootCAIssuer
  | MTLSInternodeIntermediateCACertificate
  | MTLSInternodeIntermediateCAIssuer
  | MTLSInternodeCertificate
  | MTLSFrontendIntermediateCACertificate
  | MTLSFrontendIntermediateCAIssuer
  | MTLSFrontendCertificate
  | WorkerFrontendClientCertificate
  | UIDeployment
  | UIService
  | UIIngress
  | UIFrontendClientCertificate
  | AdminToolsDeployment
  | AdminToolsFrontendClientCertificate
  deriving DecidableEq, Repr

/-- A builder (or pruner) value: which constructor made it and the service name and
per-service specification it was given, when the constructor takes them. -/
structure Builder (σ : Type) where
  kind : Kind
  serviceName : Option ServiceName
  specs : Option σ
  deriving DecidableEq, Repr

/-- The identity of a builder: its kind and optional service name. -/
abbrev BuilderId := Kind × Option ServiceName

/-- The identity of a builder value. -/
def Builder.identity {σ : Type} (x : Builder σ) : BuilderId := (x.kind, x.serviceName)

/-- A builder made by a constructor that takes no service name. -/
def Builder.plain {σ : Type} (k : Kind) : Builder σ := ⟨k, none, none⟩

/-- A builder made by a constructor that takes `serviceName` and `specs`. -/
def Builder.forService {σ : Type} (k : Kind) (serviceName : ServiceName) (specs : σ) :
    Builder σ := ⟨k, some serviceName, some specs⟩

/-! ## The two methods -/

section Methods

variable {σ ε : Type}

/-- The condition of lines 64: the mTLS block is present and its provider is the mesh
provider. -/
def istioEnabled (b : ClusterBuilder σ ε) : Bool :=
  match b.Instance.Spec.MTLS with
  | none => false
  | some m => decide (m.Provider = MTLSProvider.IstioMTLSProvider)

/-- The condition of lines 69 to 73: metrics enabled, and the prometheus, scrape
configuration and service-monitor blocks present, and the service-monitor enabled. The
conjunction of the source is evaluated left to right, each block read only when present. -/
def serviceMonitorEnabled (b : ClusterBuilder σ ε) : Bool :=
  MetricsSpec.IsEnabled b.Instance.Spec.Metrics &&
    match b.Instance.Spec.Metrics with
    | none => false
    | some m =>
      match m.Prometheus with
      | none => false
      | some p =>
        match p.ScrapeConfig with
        | none => false
        | some sc =>
          match sc.ServiceMonitor with
          | none => false
          | some sm => sm.Enabled

/-- The scope test `b.Instance.Spec.MTLS.InternodeEnabled()`; the source calls it only
after `MTLSWithCertManagerEnabled`, when the block is present. -/
def mtlsInternodeEnabled (b : ClusterBuilder σ ε) : Bool :=
  match b.Instance.Spec.MTLS with
  | none => false
  | some m => m.InternodeEnabled

/-- The scope test `b.Instance.Spec.MTLS.FrontendEnabled()`; the source calls it only
after `MTLSWithCertManagerEnabled`, when the block is present. -/
def mtlsFrontendEnabled (b : ClusterBuilder σ ε) : Bool :=
  match b.Instance.Spec.MTLS with
  | none => false
  | some m => m.FrontendEnabled

/-- The condition of line 110: the UI block is present and enabled. -/
def uiEnabled (b : ClusterBuilder σ ε) : Bool :=
  match b.Instance.Spec.UI with
  | none => false
  | some u => u.Enabled

/-- The condition of line 115, read when the UI block is present: the ingress sub-block
is present. -/
def uiIngressPresent (b : ClusterBuilder σ ε) : Bool :=
  match b.Instance.Spec.UI with
  | none => false
  | some u => u.Ingress.isSome

/-- The condition of line 124: the admin-tools block is present and enabled. -/
def adminToolsEnabled (b : ClusterBuilder σ ε) : Bool :=
  match b.Instance.Spec.AdminTools with
  | none => false
  | some a => a.Enabled

/-- The loop of lines 52 to 76 over the remaining services, `builders` being the slice
built so far. A failing lookup returns its error at once. -/
def serviceLoop (b : ClusterBuilder σ ε) :
    List ServiceName → List (Builder σ) → Except ε (List (Builder σ))
  | [], builders => Except.ok builders
  | service :: rest, builders =>
    match b.Instance.Spec.Services.GetServiceSpec service with
    | Except.error err => Except.error err
    | Except.ok specs =>
      let builders := builders ++ [Builder.forService Kind.ServiceAccount service specs]
      let builders := builders ++ [Builder.forService Kind.Deployment service specs]
      let builders := builders ++ [Builder.forService Kind.HeadlessService service specs]
      let builders :=
        if istioEnabled b then
          builders ++ [Builder.forService Kind.PeerAuthentication service specs]
            ++ [Builder.forService Kind.DestinationRule service specs]
        else builders
      let builders :=
        if serviceMonitorEnabled b then
          builders ++ [Builder.forService Kind.ServiceMonitor service specs]
        else builders
      serviceLoop b rest builders

/-- The service list of lines 41 to 50. -/
def activeServices (b : ClusterBuilder σ ε) : List ServiceName :=
  let services := [ServiceName.FrontendService, ServiceName.HistoryService,
    ServiceName.MatchingService, ServiceName.WorkerService]
  if InternalFrontendServiceSpec.IsEnabled b.Instance.Spec.Services.InternalFrontend then
    services ++ [ServiceName.InternalFrontendService]
  else services

/-- Lines 78 to 130: what is appended after the loop to the slice `builders`. -/
def afterLoop (b : ClusterBuilder σ ε) (builders : List (Builder σ)) : List (Builder σ) :=
  let builders :=
    if b.Instance.Spec.DynamicConfig.isSome then
      builders ++ [Builder.plain Kind.DynamicConfigmap]
    else builders
  let builders :=
    if b.Instance.MTLSWithCertManagerEnabled then
      let builders := builders ++ [Builder.plain Kind.MTLSBootstrapIssuer,
        Builder.plain Kind.MTLSRootCACertificate, Builder.plain Kind.MTLSRootCAIssuer]
      let builders :=
        if mtlsInternodeEnabled b then
          builders ++ [Builder.plain Kind.MTLSInternodeIntermediateCACertificate,
            Builder.plain Kind.MTLSInternodeIntermediateCAIssuer,
            Builder.plain Kind.MTLSInternodeCertificate]
        else builders
      if mtlsFrontendEnabled b then
        let builders := builders ++ [Builder.plain Kind.MTLSFrontendIntermediateCACertificate,
          Builder.plain Kind.MTLSFrontendIntermediateCAIssuer,
          Builder.plain Kind.MTLSFrontendCertificate]
        if !InternalFrontendServiceSpec.IsEnabled b.Instance.Spec.Services.InternalFrontend then
          builders ++ [Builder.plain Kind.WorkerFrontendClientCertificate]
        else builders
      else builders
    else builders
  let builders :=
    if uiEnabled b then
      let builders := builders ++ [Builder.plain Kind.UIDeployment,
        Builder.plain Kind.UIService]
      let builders :=
        if uiIngressPresent b then builders ++ [Builder.plain Kind.UIIngress]
        else builders
      if b.Instance.MTLSWithCertManagerEnabled && mtlsFrontendEnabled b then
        builders ++ [Builder.plain Kind.UIFrontendClientCertificate]
      else builders
    else builders
  if adminToolsEnabled b then
    let builders := builders ++ [Builder.plain Kind.AdminToolsDeployment]
    if b.Instance.MTLSWithCertManagerEnabled && mtlsFrontendEnabled b then
      builders ++ [Builder.plain Kind.AdminToolsFrontendClientCertificate]
    else builders
  else builders

/-- The method `ClusterBuilder.ResourceBuilders` (lines 35 to 133). -/
def ResourceBuilders (b : ClusterBuilder σ ε) : Except ε (List (Builder σ)) :=
  let builders : List (Builder σ) :=
    [Builder.plain Kind.Configmap, Builder.plain Kind.FrontendService]
  match serviceLoop b (activeServices b) builders with
  | Except.error err => Except.error err
  | Except.ok builders => Except.ok (afterLoop b builders)

/-- The method `ClusterBuilder.ResourcePruners` (lines 135 to 146). -/
def ResourcePruners (b : ClusterBuilder σ ε) : List (Builder σ) :=
  let pruners : List (Builder σ) := []
  let pruners :=
    if b.Instance.Spec.UI.isNone ||
        (b.Instance.Spec.UI.isSome && !(uiEnabled b)) then
      pruners ++ [Builder.plain Kind.UIDeployment] ++ [Builder.plain Kind.UIService]
        ++ [Builder.plain Kind.UIIngress]
    else pruners
  if b.Instance.Spec.AdminTools.isNone ||
      (b.Instance.Spec.AdminTools.isSome && !(adminToolsEnabled b)) then
    pruners ++ [Builder.plain Kind.AdminToolsDeployment]
  else pruners

/-! ## The identities in the output, in closed form -/

/-- The identities appended by one pass of the loop body for `service`. -/
def chunkIds (mesh mon : Bool) (service : ServiceName) : List BuilderId :=
  [(Kind.ServiceAccount, some service), (Kind.Deployment, some service),
    (Kind.HeadlessService, some service)]
    ++ (if mesh then [(Kind.PeerAuthentication, some service),
          (Kind.DestinationRule, some service)] else [])
    ++ (if mon then [(Kind.ServiceMonitor, some service)] else [])

/-- The identities appended after the loop, as a function of the conditions read there. -/
def tailIds (dyn ca inter front ifr ui ing adm : Bool) : List BuilderId :=
  (if dyn then [(Kind.DynamicConfigmap, none)] else [])
    ++ (if ca then
          [(Kind.MTLSBootstrapIssuer, none), (Kind.MTLSRootCACertificate, none),
            (Kind.MTLSRootCAIssuer, none)]
          ++ (if inter then
                [(Kind.MTLSInternodeIntermediateCACertificate, none),
                  (Kind.MTLSInternodeIntermediateCAIssuer, none),
                  (Kind.MTLSInternodeCertificate, none)] else [])
          ++ (if front then
                [(Kind.MTLSFrontendIntermediateCACertificate, none),
                  (Kind.MTLSFrontendIntermediateCAIssuer, none),
                  (Kind.MTLSFrontendCertificate, none)]
                ++ (if ifr then [] else [(Kind.WorkerFrontendClientCertificate, none)])
              else [])
        else [])
    ++ (if ui then
          [(Kind.UIDeployment, none), (Kind.UIService, none)]
          ++ (if ing then [(Kind.UIIngress, none)] else [])
          ++ (if ca && front then [(Kind.UIFrontendClientCertificate, none)] else [])
        else [])
    ++ (if adm then
          [(Kind.AdminToolsDeployment, none)]
          ++ (if ca && front then [(Kind.AdminToolsFrontendClientCertificate, none)] else [])
        else [])

/-- The identities after the loop for the cluster of `b`. -/
def tailIdsOf (b : ClusterBuilder σ ε) : List BuilderId :=
  tailIds b.Instance.Spec.DynamicConfig.isSome b.Instance.MTLSWithCertManagerEnabled
    (mtlsInternodeEnabled b) (mtlsFrontendEnabled b)
    (InternalFrontendServiceSpec.IsEnabled b.Instance.Spec.Services.InternalFrontend)
    (uiEnabled b) (uiIngressPresent b) (adminToolsEnabled b)

/-- The identities of the whole output for the cluster of `b`. -/
def builderIds (b : ClusterBuilder σ ε) : List BuilderId :=
  [(Kind.Configmap, none), (Kind.FrontendService, none)]
    ++ (activeServices b).flatMap (chunkIds (istioEnabled b) (serviceMonitorEnabled b))
    ++ tailIdsOf b

/-- Every lookup of an active service succeeds. -/
def LookupSucceeds (b : ClusterBuilder σ ε) : Prop :=
  ∀ s ∈ activeServices b, ∃ specs, b.Instance.Spec.Services.GetServiceSpec s = Except.ok specs

/-- The identities of the prune list, as a function of the two conditions read. -/
def pruneIds (ui adm : Bool) : List BuilderId :=
  (if ui then [] else
      [(Kind.UIDeployment, none), (Kind.UIService, none), (Kind.UIIngress, none)])
    ++ (if adm then [] else [(Kind.AdminToolsDeployment, none)])

/-- The place of a service in the enumeration order of the source. -/
def serviceIndex : ServiceName → Nat
  | ServiceName.FrontendService => 0
  | ServiceName.HistoryService => 1
  | ServiceName.MatchingService => 2
  | ServiceName.WorkerService => 3
  | ServiceName.InternalFrontendService => 4

/-- The place of a kind in the order in which the source text appends the kinds. -/
def kindIndex : Kind → Nat
  | Kind.Configmap => 0
  | Kind.FrontendService => 1
  | Kind.ServiceAccount => 2
  | Kind.Deployment => 3
  | Kind.HeadlessService => 4
  | Kind.PeerAuthentication => 5
  | Kind.DestinationRule => 6
  | Kind.ServiceMonitor => 7
  | Kind.DynamicConfigmap => 8
  | Kind.MTLSBootstrapIssuer => 9
  | Kind.MTLSRootCACertificate => 10
  | Kind.MTLSRootCAIssuer => 11
  | Kind.MTLSInternodeIntermediateCACertificate => 12
  | Kind.MTLSInternodeIntermediateCAIssuer => 13
  | Kind.MTLSInternodeCertificate => 14
  | Kind.MTLSFrontendIntermediateCACertificate => 15
  | Kind.MTLSFrontendIntermediateCAIssuer => 16
  | Kind.MTLSFrontendCertificate => 17
  | Kind.WorkerFrontendClientCertificate => 18
  | Kind.UIDeployment => 19
  | Kind.UIService => 20
  | Kind.UIIngress => 21
  | Kind.UIFrontendClientCertificate => 22
  | Kind.AdminToolsDeployment => 23
  | Kind.AdminToolsFrontendClientCertificate => 24

/-- A rank on identities that follows the order of emission of the source: the two
leading entries, then the loop entries service by service, then the entries appended
after the loop. It is a device to state and prove order facts. -/
def rank (x : BuilderId) : Nat :=
  match x.2 with
  | some s => 100 * (serviceIndex s + 1) + kindIndex x.1
  | none => if kindIndex x.1 < 2 then kindIndex x.1 else 1000 + kindIndex x.1

/-- The kinds appended first in the loop body (lines 60 to 62): identity, workload and
headless endpoint. -/
def step3Kinds : List Kind := [Kind.ServiceAccount, Kind.Deployment, Kind.HeadlessService]

/-- The kinds appended conditionally in the loop body (lines 64 to 75): mesh
peer-authentication, mesh traffic-routing and scrape. -/
def step4Kinds : List Kind :=
  [Kind.PeerAuthentication, Kind.DestinationRule, Kind.ServiceMonitor]

/-- The number of positions of the list `l` that hold the identity `x`. -/
def occurrences (x : BuilderId) (l : List BuilderId) : Nat :=
  (l.filter (fun y => decide (y = x))).length

/-- The same builder with the UI block of its cluster replaced. -/
def withUI (b : ClusterBuilder σ ε) (u : Option UISpec) : ClusterBuilder σ ε :=
  ⟨⟨⟨b.Instance.Spec.Services, b.Instance.Spec.MTLS, b.Instance.Spec.Metrics,
    b.Instance.Spec.DynamicConfig, u, b.Instance.Spec.AdminTools⟩⟩⟩

/-- The same builder with the admin-tools block of its cluster replaced. -/
def withAdminTools (b : ClusterBuilder σ ε) (a : Option AdminToolsSpec) :
    ClusterBuilder σ ε :=
  ⟨⟨⟨b.Instance.Spec.Services, b.Instance.Spec.MTLS, b.Instance.Spec.Metrics,
    b.Instance.Spec.DynamicConfig, b.Instance.Spec.UI, a⟩⟩⟩

/-- The same builder with the internal-frontend block of its cluster replaced. -/
def withInternalFrontend (b : ClusterBuilder σ ε) (i : Option InternalFrontendServiceSpec) :
    ClusterBuilder σ ε :=
  ⟨⟨⟨⟨i, b.Instance.Spec.Services.GetServiceSpec⟩, b.Instance.Spec.MTLS,
    b.Instance.Spec.Metrics, b.Instance.Spec.DynamicConfig, b.Instance.Spec.UI,
    b.Instance.Spec.AdminTools⟩⟩⟩

/-- The same builder with the mTLS block of its cluster replaced. -/
def withMTLS (b : ClusterBuilder σ ε) (m : Option MTLSSpec) : ClusterBuilder σ ε :=
  ⟨⟨⟨b.Instance.Spec.Services, m, b.Instance.Spec.Metrics,
    b.Instance.Spec.DynamicConfig, b.Instance.Spec.UI, b.Instance.Spec.AdminTools⟩⟩⟩

/-- The kinds made by the constructors of the `certmanager` package: the certificate
chain and the client certificates. -/
def certificateKinds : List Kind :=
  [Kind.MTLSBootstrapIssuer, Kind.MTLSRootCACertificate, Kind.MTLSRootCAIssuer,
    Kind.MTLSInternodeIntermediateCACertificate, Kind.MTLSInternodeIntermediateCAIssuer,
    Kind.MTLSInternodeCertificate, Kind.MTLSFrontendIntermediateCACertificate,
    Kind.MTLSFrontendIntermediateCAIssuer, Kind.MTLSFrontendCertificate,
    Kind.WorkerFrontendClientCertificate, Kind.UIFrontendClientCertificate,
    Kind.AdminToolsFrontendClientCertificate]

/-- The kinds made by the constructors of the `istio` package. -/
def meshKinds : List Kind := [Kind.PeerAuthentication, Kind.DestinationRule]

/-- The services of the fixed list of lines 41 to 46. -/
def baseServices : List ServiceName :=
  [ServiceName.FrontendService, ServiceName.HistoryService, ServiceName.MatchingService,
    ServiceName.WorkerService]

/-! ## Example clusters -/

/-- A lookup that resolves every service, to a number standing for its specification. -/
def lookupAll : ServiceName → Except String Nat :=
  fun s => Except.ok (serviceIndex s + 1)

/-- A lookup that fails for the matching and worker services. -/
def lookupFailing : ServiceName → Except String Nat
  | ServiceName.MatchingService => Except.error "matching: no specification"
  | ServiceName.WorkerService => Except.error "worker: no specification"
  | s => Except.ok (serviceIndex s + 1)

/-- Every optional block absent. -/
def clusterBase : ClusterBuilder Nat String :=
  ⟨⟨⟨⟨none, lookupAll⟩, none, none, none, none, none⟩⟩⟩

/-- The base cluster with a lookup that fails. -/
def clusterFailing : ClusterBuilder Nat String :=
  ⟨⟨⟨⟨none, lookupFailing⟩, none, none, none, none, none⟩⟩⟩

/-- Certificate-authority mTLS on both scopes, UI and admin tools absent. -/
def clusterCA : ClusterBuilder Nat String :=
  ⟨⟨⟨⟨none, lookupAll⟩, some ⟨MTLSProvider.CertManagerMTLSProvider, true, true⟩,
    none, none, none, none⟩⟩⟩

/-- Certificate-authority mTLS on both scopes, internal frontend enabled, UI enabled
with an ingress, admin tools present but disabled. -/
def clusterFull : ClusterBuilder Nat String :=
  ⟨⟨⟨⟨some ⟨true⟩, lookupAll⟩, some ⟨MTLSProvider.CertManagerMTLSProvider, true, true⟩,
    none, some ⟨⟩, some ⟨true, some ⟨⟩⟩, some ⟨false⟩⟩⟩⟩

/-- Mesh mTLS and the service monitor enabled, everything else absent. -/
def clusterMesh : ClusterBuilder Nat String :=
  ⟨⟨⟨⟨none, lookupAll⟩, some ⟨MTLSProvider.IstioMTLSProvider, false, false⟩,
    some ⟨true, some ⟨some ⟨some ⟨true⟩⟩⟩⟩, none, none, none⟩⟩⟩

/-- Mesh mTLS with both scope flags set, the service monitor, UI with an ingress and
admin tools all enabled. -/
def clusterMeshAll : ClusterBuilder Nat String :=
  ⟨⟨⟨⟨none, lookupAll⟩, some ⟨MTLSProvider.IstioMTLSProvider, true, true⟩,
    some ⟨true, some ⟨some ⟨some ⟨true⟩⟩⟩⟩, none, some ⟨true, some ⟨⟩⟩, some ⟨true⟩⟩⟩⟩

/-! ## Lemmas on the embedding -/

theorem serviceLoop_ids (b : ClusterBuilder σ ε) :
    ∀ (services : List ServiceName) (acc bs : List (Builder σ)),
      serviceLoop b services acc = Except.ok bs →
      bs.map Builder.identity = acc.map Builder.identity
        ++ services.flatMap (chunkIds (istioEnabled b) (serviceMonitorEnabled b)) := by
  intro services
  induction services with
  | nil =>
    intro acc bs h
    simp only [serviceLoop, Except.ok.injEq] at h
    simp [h]
  | cons s rest ih =>
    intro acc bs h
    unfold serviceLoop at h
    cases hl : b.Instance.Spec.Services.GetServiceSpec s with
    | error e => rw [hl] at h; cases h
    | ok specs =>
      rw [hl] at h
      have h2 := ih _ _ h
      rw [h2]
      cases istioEnabled b <;> cases serviceMonitorEnabled b <;>
        simp [chunkIds, Builder.identity, Builder.forService]

theorem afterLoop_ids (b : ClusterBuilder σ ε) (acc : List (Builder σ)) :
    (afterLoop b acc).map Builder.identity = acc.map Builder.identity ++ tailIdsOf b := by
  unfold afterLoop tailIdsOf tailIds
  cases b.Instance.Spec.DynamicConfig.isSome <;>
  cases b.Instance.MTLSWithCertManagerEnabled <;>
  cases mtlsInternodeEnabled b <;>
  cases mtlsFrontendEnabled b <;>
  cases InternalFrontendServiceSpec.IsEnabled b.Instance.Spec.Services.InternalFrontend <;>
  cases uiEnabled b <;>
  cases uiIngressPresent b <;>
  cases adminToolsEnabled b <;>
  simp [Builder.identity, Builder.plain]

theorem ResourceBuilders_ids (b : ClusterBuilder σ ε) (bs : List (Builder σ))
    (h : ResourceBuilders b = Except.ok bs) :
    bs.map Builder.identity = builderIds b := by
  unfold ResourceBuilders at h
  cases hl : serviceLoop b (activeServices b)
      [Builder.plain Kind.Configmap, Builder.plain Kind.FrontendService] with
  | error e => simp [hl] at h
  | ok mid =>
    simp only [hl, Except.ok.injEq] at h
    subst h
    rw [afterLoop_ids, serviceLoop_ids b _ _ _ hl]
    simp [builderIds, Builder.identity, Builder.plain]

theorem ResourcePruners_ids (b : ClusterBuilder σ ε) :
    (ResourcePruners b).map Builder.identity
      = pruneIds (uiEnabled b) (adminToolsEnabled b) := by
  unfold ResourcePruners pruneIds uiEnabled adminToolsEnabled
  cases b.Instance.Spec.UI with
  | none =>
    cases b.Instance.Spec.AdminTools with
    | none => simp [Builder.identity, Builder.plain]
    | some a => rcases a with ⟨_ | _⟩ <;> simp [Builder.identity, Builder.plain]
  | some u =>
    cases b.Instance.Spec.AdminTools with
    | none => rcases u with ⟨_ | _, _⟩ <;> simp [Builder.identity, Builder.plain]
    | some a =>
      rcases u with ⟨_ | _, _⟩ <;> rcases a with ⟨_ | _⟩ <;>
        simp [Builder.identity, Builder.plain]

theorem serviceLoop_error (b : ClusterBuilder σ ε) (e : ε) :
    ∀ (services : List ServiceName) (acc : List (Builder σ)),
      serviceLoop b services acc = Except.error e ↔
        ∃ pre s post, services = pre ++ s :: post ∧
          (∀ t ∈ pre, ∃ specs, b.Instance.Spec.Services.GetServiceSpec t = Except.ok specs) ∧
          b.Instance.Spec.Services.GetServiceSpec s = Except.error e := by
  intro services
  induction services with
  | nil =>
    intro acc
    simp [serviceLoop]
  | cons s rest ih =>
    intro acc
    unfold serviceLoop
    cases hl : b.Instance.Spec.Services.GetServiceSpec s with
    | error e2 =>
      constructor
      · intro h
        refine ⟨[], s, rest, rfl, ?_, ?_⟩
        · intro t ht; cases ht
        · rw [hl]; simpa using h
      · rintro ⟨pre, s2, post, heq, hpre, herr⟩
        cases pre with
        | nil =>
          simp only [List.nil_append, List.cons.injEq] at heq
          rw [← heq.1, hl] at herr
          simpa using herr
        | cons p pre2 =>
          simp only [List.cons_append, List.cons.injEq] at heq
          obtain ⟨sp, hsp⟩ := hpre p (List.mem_cons_self _ _)
          rw [← heq.1, hl] at hsp
          cases hsp
    | ok specs =>
      simp only []
      rw [ih]
      constructor
      · rintro ⟨pre, s2, post, heq, hpre, herr⟩
        refine ⟨s :: pre, s2, post, by simp [heq], ?_, herr⟩
        intro t ht
        rcases List.mem_cons.mp ht with h1 | h1
        · exact ⟨specs, by rw [h1, hl]⟩
        · exact hpre t h1
      · rintro ⟨pre, s2, post, heq, hpre, herr⟩
        cases pre with
        | nil =>
          simp only [List.nil_append, List.cons.injEq] at heq
          rw [← heq.1, hl] at herr
          cases herr
        | cons p pre2 =>
          simp only [List.cons_append, List.cons.injEq] at heq
          refine ⟨pre2, s2, post, heq.2, ?_, herr⟩
          intro t ht
          exact hpre t (List.mem_cons_of_mem _ ht)

theorem serviceLoop_ok (b : ClusterBuilder σ ε) :
    ∀ (services : List ServiceName) (acc : List (Builder σ)),
      (∃ bs, serviceLoop b services acc = Except.ok bs) ↔
        ∀ t ∈ services, ∃ specs,
          b.Instance.Spec.Services.GetServiceSpec t = Except.ok specs := by
  intro services
  induction services with
  | nil =>
    intro acc
    simp [serviceLoop]
  | cons s rest ih =>
    intro acc
    unfold serviceLoop
    cases hl : b.Instance.Spec.Services.GetServiceSpec s with
    | error e2 =>
      simp only [List.mem_cons, forall_eq_or_imp, hl]
      simp
    | ok specs =>
      simp only []
      rw [ih]
      simp [hl]

theorem ResourceBuilders_ok_iff (b : ClusterBuilder σ ε) :
    (∃ bs, ResourceBuilders b = Except.ok bs) ↔ LookupSucceeds b := by
  unfold LookupSucceeds
  rw [← serviceLoop_ok b (activeServices b)
    [Builder.plain Kind.Configmap, Builder.plain Kind.FrontendService]]
  unfold ResourceBuilders
  cases hl : serviceLoop b (activeServices b)
      [Builder.plain Kind.Configmap, Builder.plain Kind.FrontendService] with
  | error e => simp [hl]
  | ok mid => simp [hl]

theorem ResourceBuilders_error_iff (b : ClusterBuilder σ ε) (e : ε) :
    ResourceBuilders b = Except.error e ↔
      serviceLoop b (activeServices b)
        [Builder.plain Kind.Configmap, Builder.plain Kind.FrontendService]
        = Except.error e := by
  unfold ResourceBuilders
  cases hl : serviceLoop b (activeServices b)
      [Builder.plain Kind.Configmap, Builder.plain Kind.FrontendService] with
  | error e2 => simp [hl]
  | ok mid => simp [hl]

/-! ## Membership in the closed forms -/

theorem mem_chunkIds (mesh mon : Bool) (s : ServiceName) (x : BuilderId) :
    x ∈ chunkIds mesh mon s ↔
      x.2 = some s ∧
        (x.1 = Kind.ServiceAccount ∨ x.1 = Kind.Deployment ∨ x.1 = Kind.HeadlessService ∨
          (mesh = true ∧ (x.1 = Kind.PeerAuthentication ∨ x.1 = Kind.DestinationRule)) ∨
          (mon = true ∧ x.1 = Kind.ServiceMonitor)) := by
  rcases x with ⟨k, t⟩
  simp only [chunkIds, List.mem_append, List.mem_ite_nil_right, List.mem_cons,
    List.mem_singleton, List.not_mem_nil, or_false, Prod.mk.injEq]
  tauto

theorem mem_loopIds (mesh mon : Bool) (services : List ServiceName) (x : BuilderId)
    (h : x ∈ services.flatMap (chunkIds mesh mon)) :
    ∃ s ∈ services, x.2 = some s := by
  rw [List.mem_flatMap] at h
  obtain ⟨s, hs, hx⟩ := h
  exact ⟨s, hs, ((mem_chunkIds mesh mon s x).mp hx).1⟩

theorem mem_tailIds (dyn ca inter front ifr ui ing adm : Bool) (x : BuilderId)
    (h : x ∈ tailIds dyn ca inter front ifr ui ing adm) :
    x.2 = none ∧ x.1 ≠ Kind.Configmap ∧ x.1 ≠ Kind.FrontendService := by
  simp only [tailIds, List.mem_append, List.mem_ite_nil_right, List.mem_ite_nil_left,
    List.mem_cons, List.mem_singleton, List.not_mem_nil, or_false] at h
  rcases x with ⟨k, s⟩
  simp only [Prod.mk.injEq] at h
  refine ⟨?_, ?_, ?_⟩
  · tauto
  · rintro rfl; simp at h
  · rintro rfl; simp at h

theorem mem_tailIds_prune (dyn ca inter front ifr ui ing adm : Bool) (x : BuilderId)
    (h : x ∈ tailIds dyn ca inter front ifr ui ing adm) : x ∉ pruneIds ui adm := by
  simp only [tailIds, List.mem_append, List.mem_ite_nil_right, List.mem_ite_nil_left,
    List.mem_cons, List.mem_singleton, List.not_mem_nil, or_false] at h
  simp only [pruneIds, List.mem_append, List.mem_ite_nil_right, List.mem_ite_nil_left,
    List.mem_cons, List.mem_singleton, List.not_mem_nil, or_false]
  rcases x with ⟨k, s⟩
  simp only [Prod.mk.injEq] at h ⊢
  intro hp
  rcases hp with ⟨hu, hk | hk | hk⟩ | ⟨ha, hk⟩ <;> obtain ⟨rfl, rfl⟩ := hk <;>
    simp_all

theorem mem_pruneIds_none (ui adm : Bool) (x : BuilderId) (h : x ∈ pruneIds ui adm) :
    x.2 = none ∧ x.1 ≠ Kind.Configmap ∧ x.1 ≠ Kind.FrontendService := by
  simp only [pruneIds, List.mem_append, List.mem_ite_nil_right, List.mem_ite_nil_left,
    List.mem_cons, List.mem_singleton, List.not_mem_nil, or_false] at h
  rcases h with ⟨_, rfl | rfl | rfl⟩ | ⟨_, rfl⟩ <;> simp

theorem builderIds_not_mem_pruneIds (b : ClusterBuilder σ ε) (x : BuilderId)
    (h : x ∈ builderIds b) : x ∉ pruneIds (uiEnabled b) (adminToolsEnabled b) := by
  unfold builderIds at h
  rcases List.mem_append.mp h with h1 | h1
  · rcases List.mem_append.mp h1 with h2 | h2
    · intro hp
      have hn := mem_pruneIds_none _ _ x hp
      simp only [List.mem_cons, List.mem_singleton, List.not_mem_nil, or_false] at h2
      rcases h2 with rfl | rfl
      · exact hn.2.1 rfl
      · exact hn.2.2 rfl
    · intro hp
      have hn := mem_pruneIds_none _ _ x hp
      obtain ⟨s, _, hs⟩ := mem_loopIds _ _ _ x h2
      rw [hn.1] at hs
      cases hs
  · exact mem_tailIds_prune _ _ _ _ _ _ _ _ x h1

/-! ## No duplicates -/

theorem tailIds_nodup (dyn ca inter front ifr ui ing adm : Bool) :
    (tailIds dyn ca inter front ifr ui ing adm).Nodup := by
  cases dyn <;> cases ca <;> cases inter <;> cases front <;> cases ifr <;> cases ui <;>
    cases ing <;> cases adm <;> decide

theorem chunkIds_nodup (mesh mon : Bool) (s : ServiceName) : (chunkIds mesh mon s).Nodup := by
  cases mesh <;> cases mon <;> simp [chunkIds]

theorem activeServices_nodup (b : ClusterBuilder σ ε) : (activeServices b).Nodup := by
  unfold activeServices
  cases InternalFrontendServiceSpec.IsEnabled b.Instance.Spec.Services.InternalFrontend <;>
    decide

theorem loopIds_nodup (mesh mon : Bool) (services : List ServiceName)
    (h : services.Nodup) : (services.flatMap (chunkIds mesh mon)).Nodup := by
  rw [List.nodup_flatMap]
  refine ⟨fun s _ => chunkIds_nodup mesh mon s, ?_⟩
  refine List.Pairwise.imp_of_mem ?_ h
  intro s t _ _ hne x hx hy
  have h1 := ((mem_chunkIds mesh mon s x).mp hx).1
  have h2 := ((mem_chunkIds mesh mon t x).mp hy).1
  rw [h1] at h2
  exact hne (Option.some.inj h2)

theorem builderIds_nodup (b : ClusterBuilder σ ε) : (builderIds b).Nodup := by
  unfold builderIds
  rw [List.nodup_append, List.nodup_append]
  refine ⟨⟨by decide, loopIds_nodup _ _ _ (activeServices_nodup b), ?_⟩,
    tailIds_nodup _ _ _ _ _ _ _ _, ?_⟩
  · intro x hx hy
    obtain ⟨s, _, hs⟩ := mem_loopIds _ _ _ x hy
    simp only [List.mem_cons, List.mem_singleton, List.not_mem_nil, or_false] at hx
    rcases hx with rfl | rfl <;> cases hs
  · intro x hx hy
    have hn := mem_tailIds _ _ _ _ _ _ _ _ x hy
    rcases List.mem_append.mp hx with h2 | h2
    · simp only [List.mem_cons, List.mem_singleton, List.not_mem_nil, or_false] at h2
      rcases h2 with rfl | rfl
      · exact hn.2.1 rfl
      · exact hn.2.2 rfl
    · obtain ⟨s, _, hs⟩ := mem_loopIds _ _ _ x h2
      rw [hn.1] at hs
      cases hs

/-! ## The output follows the rank -/

theorem tailIds_sorted (dyn ca inter front ifr ui ing adm : Bool) :
    (tailIds dyn ca inter front ifr ui ing adm).Pairwise (fun x y => rank x < rank y) := by
  cases dyn <;> cases ca <;> cases inter <;> cases front <;> cases ifr <;> cases ui <;>
    cases ing <;> cases adm <;> decide

theorem loopIds_sorted (b : ClusterBuilder σ ε) :
    ((activeServices b).flatMap
      (chunkIds (istioEnabled b) (serviceMonitorEnabled b))).Pairwise
        (fun x y => rank x < rank y) := by
  unfold activeServices
  cases InternalFrontendServiceSpec.IsEnabled b.Instance.Spec.Services.InternalFrontend <;>
    cases istioEnabled b <;> cases serviceMonitorEnabled b <;> decide

theorem rank_tailIds (dyn ca inter front ifr ui ing adm : Bool) (x : BuilderId)
    (h : x ∈ tailIds dyn ca inter front ifr ui ing adm) : 1000 ≤ rank x := by
  simp only [tailIds, List.mem_append, List.mem_ite_nil_right, List.mem_ite_nil_left,
    List.mem_cons, List.mem_singleton, List.not_mem_nil, or_false] at h
  rcases h with ((⟨_, rfl⟩ | ⟨_, (((rfl | rfl | rfl) | ⟨_, rfl | rfl | rfl⟩) |
      ⟨_, ((rfl | rfl | rfl) | ⟨_, rfl⟩)⟩)⟩) |
      ⟨_, (((rfl | rfl) | ⟨_, rfl⟩) | ⟨_, rfl⟩)⟩) | ⟨_, (rfl | ⟨_, rfl⟩)⟩ <;> decide

theorem rank_loopIds (mesh mon : Bool) (services : List ServiceName) (x : BuilderId)
    (h : x ∈ services.flatMap (chunkIds mesh mon)) : 2 ≤ rank x ∧ rank x < 1000 := by
  rw [List.mem_flatMap] at h
  obtain ⟨s, _, hx⟩ := h
  obtain ⟨hs, hk⟩ := (mem_chunkIds mesh mon s x).mp hx
  rcases x with ⟨k, t⟩
  simp only at hs hk
  subst hs
  cases s <;> rcases hk with rfl | rfl | rfl | ⟨_, rfl | rfl⟩ | ⟨_, rfl⟩ <;> decide

theorem builderIds_sorted (b : ClusterBuilder σ ε) :
    (builderIds b).Pairwise (fun x y => rank x < rank y) := by
  unfold builderIds
  rw [List.pairwise_append, List.pairwise_append]
  refine ⟨⟨by decide, loopIds_sorted b, ?_⟩, tailIds_sorted _ _ _ _ _ _ _ _, ?_⟩
  · intro x hx y hy
    have hy2 := (rank_loopIds _ _ _ y hy).1
    simp only [List.mem_cons, List.mem_singleton, List.not_mem_nil, or_false] at hx
    rcases hx with rfl | rfl
    · exact Nat.lt_of_lt_of_le (by decide) hy2
    · exact Nat.lt_of_lt_of_le (by decide) hy2
  · intro x hx y hy
    have hy2 := rank_tailIds _ _ _ _ _ _ _ _ y hy
    rcases List.mem_append.mp hx with h2 | h2
    · simp only [List.mem_cons, List.mem_singleton, List.not_mem_nil, or_false] at h2
      rcases h2 with rfl | rfl
      · exact Nat.lt_of_lt_of_le (by decide) hy2
      · exact Nat.lt_of_lt_of_le (by decide) hy2
    · exact Nat.lt_of_lt_of_le (rank_loopIds _ _ _ x h2).2 hy2

/-- In a list that follows the rank, positions are ordered as ranks are. -/
theorem index_lt_of_rank_lt (l : List BuilderId)
    (hs : l.Pairwise (fun x y => rank x < rank y)) (i j : Nat) (x y : BuilderId)
    (hi : l[i]? = some x) (hj : l[j]? = some y) (hr : rank x < rank y) : i < j := by
  by_contra hnot
  have hji : j ≤ i := Nat.le_of_not_lt hnot
  obtain ⟨hi1, hi2⟩ := List.getElem?_eq_some.mp hi
  obtain ⟨hj1, hj2⟩ := List.getElem?_eq_some.mp hj
  rcases Nat.lt_or_eq_of_le hji with hlt | heq
  · have := (List.pairwise_iff_getElem.mp hs) j i hj1 hi1 hlt
    rw [hi2, hj2] at this
    exact absurd hr (Nat.lt_asymm this)
  · subst heq
    rw [hi2] at hj2
    subst hj2
    exact Nat.lt_irrefl _ hr

/-! ## Entries appended after the loop -/

theorem mem_builderIds_tail (b : ClusterBuilder σ ε) (x : BuilderId)
    (h2 : x.2 = none) (hc : x.1 ≠ Kind.Configmap) (hf : x.1 ≠ Kind.FrontendService) :
    x ∈ builderIds b ↔ x ∈ tailIdsOf b := by
  unfold builderIds
  constructor
  · intro h
    rcases List.mem_append.mp h with h1 | h1
    · rcases List.mem_append.mp h1 with h3 | h3
      · simp only [List.mem_cons, List.mem_singleton, List.not_mem_nil, or_false] at h3
        rcases h3 with rfl | rfl
        · exact absurd rfl hc
        · exact absurd rfl hf
      · obtain ⟨s, _, hs⟩ := mem_loopIds _ _ _ x h3
        rw [h2] at hs
        cases hs
    · exact h1
  · intro h
    exact List.mem_append_right _ h

theorem certManager_enabled (b : ClusterBuilder σ ε) (m : MTLSSpec)
    (hm : b.Instance.Spec.MTLS = some m)
    (hp : m.Provider = MTLSProvider.CertManagerMTLSProvider) :
    b.Instance.MTLSWithCertManagerEnabled = true := by
  simp [TemporalCluster.MTLSWithCertManagerEnabled, hm, hp]

theorem builderIds_withUI (b : ClusterBuilder σ ε) (en : Bool) (g : Option UIIngressSpec) :
    builderIds (withUI b (some ⟨en, g⟩)) =
      [(Kind.Configmap, none), (Kind.FrontendService, none)]
        ++ (activeServices b).flatMap (chunkIds (istioEnabled b) (serviceMonitorEnabled b))
        ++ tailIds b.Instance.Spec.DynamicConfig.isSome b.Instance.MTLSWithCertManagerEnabled
            (mtlsInternodeEnabled b) (mtlsFrontendEnabled b)
            (InternalFrontendServiceSpec.IsEnabled b.Instance.Spec.Services.InternalFrontend)
            en g.isSome (adminToolsEnabled b) := rfl

theorem builderIds_withAdminTools (b : ClusterBuilder σ ε) (en : Bool) :
    builderIds (withAdminTools b (some ⟨en⟩)) =
      [(Kind.Configmap, none), (Kind.FrontendService, none)]
        ++ (activeServices b).flatMap (chunkIds (istioEnabled b) (serviceMonitorEnabled b))
        ++ tailIds b.Instance.Spec.DynamicConfig.isSome b.Instance.MTLSWithCertManagerEnabled
            (mtlsInternodeEnabled b) (mtlsFrontendEnabled b)
            (InternalFrontendServiceSpec.IsEnabled b.Instance.Spec.Services.InternalFrontend)
            (uiEnabled b) (uiIngressPresent b) en := rfl

theorem not_mem_headLoop (mesh mon : Bool) (services : List ServiceName) (x : BuilderId)
    (h2 : x.2 = none) (hc : x.1 ≠ Kind.Configmap) (hf : x.1 ≠ Kind.FrontendService) :
    x ∉ [(Kind.Configmap, none), (Kind.FrontendService, none)]
        ++ services.flatMap (chunkIds mesh mon) := by
  intro h
  rcases List.mem_append.mp h with h3 | h3
  · simp only [List.mem_cons, List.mem_singleton, List.not_mem_nil, or_false] at h3
    rcases h3 with rfl | rfl
    · exact absurd rfl hc
    · exact absurd rfl hf
  · obtain ⟨s, _, hs⟩ := mem_loopIds _ _ _ x h3
    rw [h2] at hs
    cases hs

theorem occurrences_eq_zero (x : BuilderId) (l : List BuilderId) (h : x ∉ l) :
    occurrences x l = 0 := by
  unfold occurrences
  rw [List.length_eq_zero, List.filter_eq_nil_iff]
  intro y hy heq
  have hyx : y = x := by simpa using heq
  exact h (hyx ▸ hy)

theorem occurrences_eq_one (x : BuilderId) (l : List BuilderId) (hn : l.Nodup)
    (h : x ∈ l) : occurrences x l = 1 := by
  induction l with
  | nil => cases h
  | cons a l ih =>
    obtain ⟨hal, hl⟩ := List.nodup_cons.mp hn
    by_cases hax : a = x
    · subst hax
      have h0 := occurrences_eq_zero a l hal
      unfold occurrences at h0 ⊢
      rw [List.filter_cons_of_pos (by simp), List.length_cons, h0]
    · have hxl : x ∈ l := by
        rcases List.mem_cons.mp h with h1 | h1
        · exact absurd h1.symm hax
        · exact h1
      have h1 := ih hl hxl
      unfold occurrences at h1 ⊢
      rw [List.filter_cons_of_neg (by simpa using hax)]
      exact h1

theorem tailIds_chain_sublist (dyn front ifr ui ing adm : Bool) :
    List.Sublist
      [(Kind.MTLSBootstrapIssuer, none), (Kind.MTLSRootCACertificate, none),
        (Kind.MTLSRootCAIssuer, none), (Kind.MTLSInternodeIntermediateCACertificate, none),
        (Kind.MTLSInternodeIntermediateCAIssuer, none),
        (Kind.MTLSInternodeCertificate, none)]
      (tailIds dyn true true front ifr ui ing adm) := by
  cases dyn <;> cases front <;> cases ifr <;> cases ui <;> cases ing <;> cases adm <;>
    decide

theorem tailIds_filter_ingress (dyn ca inter front ifr adm : Bool) :
    (tailIds dyn ca inter front ifr true true adm).filter
        (fun x => decide (x ≠ (Kind.UIIngress, none)))
      = tailIds dyn ca inter front ifr true false adm := by
  cases dyn <;> cases ca <;> cases inter <;> cases front <;> cases ifr <;> cases adm <;>
    decide

theorem tailIds_ui_difference (dyn ca inter front ifr ing ing0 adm : Bool) (x : BuilderId)
    (h1 : x ∈ tailIds dyn ca inter front ifr true ing adm)
    (h2 : x ∉ tailIds dyn ca inter front ifr false ing0 adm)
    (h3 : x ≠ (Kind.UIFrontendClientCertificate, none)) :
    x ∈ pruneIds false adm := by
  simp only [tailIds, List.mem_append] at h1 h2
  rcases h1 with ((h | h) | h) | h
  · exact absurd (Or.inl (Or.inl (Or.inl h))) h2
  · exact absurd (Or.inl (Or.inl (Or.inr h))) h2
  · simp only [if_true, List.mem_append, List.mem_ite_nil_right, List.mem_cons,
      List.mem_singleton, List.not_mem_nil, or_false] at h
    simp only [pruneIds, List.mem_append, List.mem_ite_nil_left, List.mem_cons,
      List.mem_singleton, List.not_mem_nil, or_false]
    rcases h with ((h | h) | ⟨_, h⟩) | ⟨_, h⟩
    · exact Or.inl ⟨by simp, Or.inl h⟩
    · exact Or.inl ⟨by simp, Or.inr (Or.inl h)⟩
    · exact Or.inl ⟨by simp, Or.inr (Or.inr h)⟩
    · exact absurd h h3
  · exact absurd (Or.inr h) h2

theorem tailIds_adm_difference (dyn ca inter front ifr ui ing : Bool) (x : BuilderId)
    (h1 : x ∈ tailIds dyn ca inter front ifr ui ing true)
    (h2 : x ∉ tailIds dyn ca inter front ifr ui ing false)
    (h3 : x ≠ (Kind.AdminToolsFrontendClientCertificate, none)) :
    x ∈ pruneIds ui false := by
  simp only [tailIds, List.mem_append] at h1 h2
  rcases h1 with ((h | h) | h) | h
  · exact absurd (Or.inl (Or.inl (Or.inl h))) h2
  · exact absurd (Or.inl (Or.inl (Or.inr h))) h2
  · exact absurd (Or.inl (Or.inr h)) h2
  · simp only [if_true, List.mem_append, List.mem_ite_nil_right, List.mem_cons,
      List.mem_singleton, List.not_mem_nil, or_false] at h
    simp only [pruneIds, List.mem_append, List.mem_ite_nil_left, List.mem_cons,
      List.mem_singleton, List.not_mem_nil, or_false]
    rcases h with h | ⟨_, h⟩
    · exact Or.inr ⟨by simp, h⟩
    · exact absurd h h3

theorem uiEnabled_false (b : ClusterBuilder σ ε)
    (h : b.Instance.Spec.UI = none ∨
      ∃ u, b.Instance.Spec.UI = some u ∧ u.Enabled = false) : uiEnabled b = false := by
  unfold uiEnabled
  rcases h with h | ⟨u, hu, he⟩
  · rw [h]
  · rw [hu]; exact he

theorem adminToolsEnabled_false (b : ClusterBuilder σ ε)
    (h : b.Instance.Spec.AdminTools = none ∨
      ∃ a, b.Instance.Spec.AdminTools = some a ∧ a.Enabled = false) :
    adminToolsEnabled b = false := by
  unfold adminToolsEnabled
  rcases h with h | ⟨a, ha, he⟩
  · rw [h]
  · rw [ha]; exact he

/-! ## Entries of the loop -/

theorem activeServices_eq (b : ClusterBuilder σ ε) :
    activeServices b = baseServices ++
      (if InternalFrontendServiceSpec.IsEnabled b.Instance.Spec.Services.InternalFrontend
        then [ServiceName.InternalFrontendService] else []) := by
  unfold activeServices baseServices
  cases InternalFrontendServiceSpec.IsEnabled b.Instance.Spec.Services.InternalFrontend <;>
    rfl

theorem mem_builderIds_loop (b : ClusterBuilder σ ε) (x : BuilderId) (s : ServiceName)
    (hs : x.2 = some s) :
    x ∈ builderIds b ↔
      s ∈ activeServices b ∧
        x ∈ chunkIds (istioEnabled b) (serviceMonitorEnabled b) s := by
  unfold builderIds
  constructor
  · intro h
    rcases List.mem_append.mp h with h1 | h1
    · rcases List.mem_append.mp h1 with h2 | h2
      · simp only [List.mem_cons, List.mem_singleton, List.not_mem_nil, or_false] at h2
        rcases h2 with rfl | rfl <;> cases hs
      · rw [List.mem_flatMap] at h2
        obtain ⟨a, ha, hx⟩ := h2
        have h3 := ((mem_chunkIds _ _ a x).mp hx).1
        rw [hs] at h3
        cases h3
        exact ⟨ha, hx⟩
    · have h3 := (mem_tailIds _ _ _ _ _ _ _ _ x h1).1
      rw [hs] at h3
      cases h3
  · rintro ⟨ha, hx⟩
    exact List.mem_append_left _
      (List.mem_append_right _ (List.mem_flatMap.mpr ⟨s, ha, hx⟩))

theorem mem_builderIds_service (b : ClusterBuilder σ ε) (x : BuilderId) (s : ServiceName)
    (h : x ∈ builderIds b) (hs : x.2 = some s) : s ∈ activeServices b :=
  ((mem_builderIds_loop b x s hs).mp h).1

theorem mem_builderIds_kind_service (b : ClusterBuilder σ ε) (x : BuilderId)
    (h : x ∈ builderIds b)
    (hk : x.1 ∈ [Kind.ServiceAccount, Kind.Deployment, Kind.HeadlessService,
      Kind.PeerAuthentication, Kind.DestinationRule, Kind.ServiceMonitor]) :
    ∃ s, x.2 = some s := by
  unfold builderIds at h
  rcases List.mem_append.mp h with h1 | h1
  · rcases List.mem_append.mp h1 with h2 | h2
    · simp only [List.mem_cons, List.mem_singleton, List.not_mem_nil, or_false] at h2
      rcases h2 with rfl | rfl <;> simp at hk
    · obtain ⟨s, _, hs⟩ := mem_loopIds _ _ _ x h2
      exact ⟨s, hs⟩
  · have hn := (mem_tailIds _ _ _ _ _ _ _ _ x h1).1
    rcases x with ⟨k, t⟩
    simp only at hn hk
    subst hn
    simp only [List.mem_cons, List.mem_singleton, List.not_mem_nil, or_false] at hk
    simp only [tailIdsOf, tailIds, List.mem_append, List.mem_ite_nil_right, List.mem_ite_nil_left,
      List.mem_cons, List.mem_singleton, List.not_mem_nil, or_false, Prod.mk.injEq,
      and_true] at h1
    rcases hk with rfl | rfl | rfl | rfl | rfl | rfl <;> simp at h1

theorem serviceMonitorEnabled_iff (b : ClusterBuilder σ ε) :
    serviceMonitorEnabled b = true ↔
      ∃ m p sc sm, b.Instance.Spec.Metrics = some m ∧ m.Enabled = true ∧
        m.Prometheus = some p ∧ p.ScrapeConfig = some sc ∧
        sc.ServiceMonitor = some sm ∧ sm.Enabled = true := by
  unfold serviceMonitorEnabled MetricsSpec.IsEnabled
  cases b.Instance.Spec.Metrics with
  | none => simp
  | some m =>
    rcases m with ⟨en, p⟩
    cases p with
    | none => simp
    | some p =>
      rcases p with ⟨sc⟩
      cases sc with
      | none => simp
      | some sc =>
        rcases sc with ⟨sm⟩
        cases sm with
        | none => simp
        | some sm => simp

theorem istioEnabled_iff (b : ClusterBuilder σ ε) :
    istioEnabled b = true ↔
      ∃ m, b.Instance.Spec.MTLS = some m ∧
        m.Provider = MTLSProvider.IstioMTLSProvider := by
  unfold istioEnabled
  cases b.Instance.Spec.MTLS with
  | none => simp
  | some m => simp

theorem certManagerEnabled_iff (b : ClusterBuilder σ ε) :
    b.Instance.MTLSWithCertManagerEnabled = true ↔
      ∃ m, b.Instance.Spec.MTLS = some m ∧
        m.Provider = MTLSProvider.CertManagerMTLSProvider := by
  unfold TemporalCluster.MTLSWithCertManagerEnabled
  cases b.Instance.Spec.MTLS with
  | none => simp
  | some m => simp

theorem uiEnabled_iff (b : ClusterBuilder σ ε) :
    uiEnabled b = true ↔ ∃ u, b.Instance.Spec.UI = some u ∧ u.Enabled = true := by
  unfold uiEnabled
  cases b.Instance.Spec.UI with
  | none => simp
  | some u => simp

theorem adminToolsEnabled_iff (b : ClusterBuilder σ ε) :
    adminToolsEnabled b = true ↔
      ∃ a, b.Instance.Spec.AdminTools = some a ∧ a.Enabled = true := by
  unfold adminToolsEnabled
  cases b.Instance.Spec.AdminTools with
  | none => simp
  | some a => simp

theorem builderIds_withInternalFrontend (b : ClusterBuilder σ ε)
    (i : Option InternalFrontendServiceSpec) :
    builderIds (withInternalFrontend b i) =
      [(Kind.Configmap, none), (Kind.FrontendService, none)]
        ++ (baseServices ++
            (if InternalFrontendServiceSpec.IsEnabled i
              then [ServiceName.InternalFrontendService] else [])).flatMap
          (chunkIds (istioEnabled b) (serviceMonitorEnabled b))
        ++ tailIds b.Instance.Spec.DynamicConfig.isSome b.Instance.MTLSWithCertManagerEnabled
            (mtlsInternodeEnabled b) (mtlsFrontendEnabled b)
            (InternalFrontendServiceSpec.IsEnabled i)
            (uiEnabled b) (uiIngressPresent b) (adminToolsEnabled b) := by
  unfold builderIds
  rw [activeServices_eq]
  rfl

theorem headLoop_filterMap (mesh mon ifr : Bool) (k : Kind) (hk : k ∈ step3Kinds) :
    ([(Kind.Configmap, none), (Kind.FrontendService, none)]
        ++ (baseServices ++
            (if ifr then [ServiceName.InternalFrontendService] else [])).flatMap
          (chunkIds mesh mon)).filterMap (fun x : BuilderId => if x.1 = k then x.2 else none)
      = baseServices ++ (if ifr then [ServiceName.InternalFrontendService] else []) := by
  simp only [step3Kinds, List.mem_cons, List.mem_singleton, List.not_mem_nil,
    or_false] at hk
  rcases hk with rfl | rfl | rfl <;> cases mesh <;> cases mon <;> cases ifr <;> decide

theorem tailIds_filterMap (dyn ca inter front ifr ui ing adm : Bool) (k : Kind) :
    (tailIds dyn ca inter front ifr ui ing adm).filterMap
      (fun x : BuilderId => if x.1 = k then x.2 else none) = [] := by
  rw [List.filterMap_eq_nil_iff]
  intro x hx
  have hn := (mem_tailIds _ _ _ _ _ _ _ _ x hx).1
  rw [hn]
  simp

theorem builderIds_withMTLS_none (b : ClusterBuilder σ ε) :
    builderIds (withMTLS b none) =
      [(Kind.Configmap, none), (Kind.FrontendService, none)]
        ++ (activeServices b).flatMap (chunkIds false (serviceMonitorEnabled b))
        ++ tailIds b.Instance.Spec.DynamicConfig.isSome false false false
            (InternalFrontendServiceSpec.IsEnabled b.Instance.Spec.Services.InternalFrontend)
            (uiEnabled b) (uiIngressPresent b) (adminToolsEnabled b) := rfl

theorem builderIds_withMTLS_certManager (b : ClusterBuilder σ ε) (inter front : Bool) :
    builderIds (withMTLS b (some ⟨MTLSProvider.CertManagerMTLSProvider, inter, front⟩)) =
      [(Kind.Configmap, none), (Kind.FrontendService, none)]
        ++ (activeServices b).flatMap (chunkIds false (serviceMonitorEnabled b))
        ++ tailIds b.Instance.Spec.DynamicConfig.isSome true inter front
            (InternalFrontendServiceSpec.IsEnabled b.Instance.Spec.Services.InternalFrontend)
            (uiEnabled b) (uiIngressPresent b) (adminToolsEnabled b) := rfl

theorem tailIds_certManager_append (dyn ing : Bool) :
    tailIds dyn true true true false false ing false =
      tailIds dyn false false false false false ing false ++
        [(Kind.MTLSBootstrapIssuer, none), (Kind.MTLSRootCACertificate, none),
          (Kind.MTLSRootCAIssuer, none),
          (Kind.MTLSInternodeIntermediateCACertificate, none),
          (Kind.MTLSInternodeIntermediateCAIssuer, none),
          (Kind.MTLSInternodeCertificate, none),
          (Kind.MTLSFrontendIntermediateCACertificate, none),
          (Kind.MTLSFrontendIntermediateCAIssuer, none),
          (Kind.MTLSFrontendCertificate, none),
          (Kind.WorkerFrontendClientCertificate, none)] := by
  cases dyn <;> cases ing <;> rfl

theorem builderIds_withUI_option (b : ClusterBuilder σ ε) (u : Option UISpec) :
    builderIds (withUI b u) =
      [(Kind.Configmap, none), (Kind.FrontendService, none)]
        ++ (activeServices b).flatMap (chunkIds (istioEnabled b) (serviceMonitorEnabled b))
        ++ tailIds b.Instance.Spec.DynamicConfig.isSome b.Instance.MTLSWithCertManagerEnabled
            (mtlsInternodeEnabled b) (mtlsFrontendEnabled b)
            (InternalFrontendServiceSpec.IsEnabled b.Instance.Spec.Services.InternalFrontend)
            (uiEnabled (withUI b u)) (uiIngressPresent (withUI b u))
            (adminToolsEnabled b) := rfl

theorem uiEnabled_withUI_false (b : ClusterBuilder σ ε) (u0 : Option UISpec)
    (h : u0 = none ∨ ∃ u, u0 = some u ∧ u.Enabled = false) :
    uiEnabled (withUI b u0) = false := by
  rcases h with rfl | ⟨u, rfl, hu⟩
  · rfl
  · exact hu

theorem tailIds_ui_off_split (dyn inter ifr ing0 adm : Bool) :
    tailIds dyn true inter true ifr false ing0 adm =
      tailIds dyn true inter true ifr false false false ++
        (if adm then [(Kind.AdminToolsDeployment, none),
          (Kind.AdminToolsFrontendClientCertificate, none)] else []) := by
  cases dyn <;> cases inter <;> cases ifr <;> cases ing0 <;> cases adm <;> rfl

theorem tailIds_ui_on_split (dyn inter ifr adm : Bool) :
    tailIds dyn true inter true ifr true true adm =
      tailIds dyn true inter true ifr false false false ++
        [(Kind.UIDeployment, none), (Kind.UIService, none), (Kind.UIIngress, none),
          (Kind.UIFrontendClientCertificate, none)] ++
        (if adm then [(Kind.AdminToolsDeployment, none),
          (Kind.AdminToolsFrontendClientCertificate, none)] else []) := by
  cases dyn <;> cases inter <;> cases ifr <;> cases adm <;> rfl

theorem not_mem_tailIds_ui_off (dyn ca inter front ifr ing adm : Bool) (x : BuilderId)
    (hx : x ∈ [(Kind.UIDeployment, none), (Kind.UIService, none), (Kind.UIIngress, none),
      (Kind.UIFrontendClientCertificate, none)]) :
    x ∉ tailIds dyn ca inter front ifr false ing adm := by
  simp only [List.mem_cons, List.mem_singleton, List.not_mem_nil, or_false] at hx
  rcases hx with rfl | rfl | rfl | rfl <;> simp [tailIds]

theorem mem_builderIds_loop_kind (b : ClusterBuilder σ ε) (k : Kind) (s : ServiceName) :
    (k, some s) ∈ builderIds b ↔
      s ∈ activeServices b ∧
        (k = Kind.ServiceAccount ∨ k = Kind.Deployment ∨ k = Kind.HeadlessService ∨
          (istioEnabled b = true ∧
            (k = Kind.PeerAuthentication ∨ k = Kind.DestinationRule)) ∨
          (serviceMonitorEnabled b = true ∧ k = Kind.ServiceMonitor)) := by
  rw [mem_builderIds_loop b (k, some s) s rfl, mem_chunkIds]
  simp

theorem builderIds_kind_service (b : ClusterBuilder σ ε) (x : BuilderId)
    (h : x ∈ builderIds b)
    (hk : x.1 ∈ [Kind.ServiceAccount, Kind.Deployment, Kind.HeadlessService,
      Kind.PeerAuthentication, Kind.DestinationRule, Kind.ServiceMonitor]) :
    ∃ s ∈ activeServices b, x.2 = some s ∧ (x.1, some s) ∈ builderIds b := by
  obtain ⟨s, hs⟩ := mem_builderIds_kind_service b x h hk
  refine ⟨s, mem_builderIds_service b x s h hs, hs, ?_⟩
  rw [← hs]
  exact h

theorem caFrontend_iff (b : ClusterBuilder σ ε) :
    (b.Instance.MTLSWithCertManagerEnabled && mtlsFrontendEnabled b) = true ↔
      ∃ m, b.Instance.Spec.MTLS = some m ∧
        m.Provider = MTLSProvider.CertManagerMTLSProvider ∧ m.FrontendEnabled = true := by
  unfold TemporalCluster.MTLSWithCertManagerEnabled mtlsFrontendEnabled
  cases b.Instance.Spec.MTLS with
  | none => simp
  | some m => simp

theorem istio_not_certManager (b : ClusterBuilder σ ε) (h : istioEnabled b = true) :
    b.Instance.MTLSWithCertManagerEnabled = false := by
  obtain ⟨m, hm, hp⟩ := (istioEnabled_iff b).mp h
  simp [TemporalCluster.MTLSWithCertManagerEnabled, hm, hp]

theorem tailIds_no_certManager (dyn inter front ifr ui ing adm : Bool) :
    tailIds dyn false inter front ifr ui ing adm =
      tailIds dyn false false false false ui ing adm := by
  simp [tailIds]

theorem tailIds_no_certificate (dyn inter front ifr ui ing adm : Bool) (y : BuilderId)
    (h : y ∈ tailIds dyn false inter front ifr ui ing adm) : y.1 ∉ certificateKinds := by
  rw [tailIds_no_certManager] at h
  revert y
  cases dyn <;> cases ui <;> cases ing <;> cases adm <;> decide

theorem certificate_needs_certManager (b : ClusterBuilder σ ε) (y : BuilderId)
    (h : y ∈ builderIds b) (hk : y.1 ∈ certificateKinds) :
    b.Instance.MTLSWithCertManagerEnabled = true := by
  unfold builderIds at h
  rcases List.mem_append.mp h with h1 | h1
  · rcases List.mem_append.mp h1 with h2 | h2
    · simp only [List.mem_cons, List.mem_singleton, List.not_mem_nil, or_false] at h2
      rcases h2 with rfl | rfl <;> simp [certificateKinds] at hk
    · rw [List.mem_flatMap] at h2
      obtain ⟨s, _, hx⟩ := h2
      have hc := ((mem_chunkIds _ _ s y).mp hx).2
      rcases hc with hc | hc | hc | ⟨_, hc | hc⟩ | ⟨_, hc⟩ <;> rw [hc] at hk <;>
        simp [certificateKinds] at hk
  · cases hca : b.Instance.MTLSWithCertManagerEnabled with
    | true => rfl
    | false =>
      unfold tailIdsOf at h1
      rw [hca] at h1
      exact absurd hk (tailIds_no_certificate _ _ _ _ _ _ _ y h1)

theorem loopIds_length (mesh mon ifr : Bool) :
    ((baseServices ++
        (if ifr then [ServiceName.InternalFrontendService] else [])).flatMap
      (chunkIds mesh mon)).length
      = (4 + ifr.toNat) * (3 + 2 * mesh.toNat + mon.toNat) := by
  cases mesh <;> cases mon <;> cases ifr <;> rfl

theorem tailIds_length (dyn ca inter front ifr ui ing adm : Bool) :
    (tailIds dyn ca inter front ifr ui ing adm).length
      = dyn.toNat
        + ca.toNat * (3 + 3 * inter.toNat + front.toNat * (3 + (1 - ifr.toNat)))
        + ui.toNat * (2 + ing.toNat + ca.toNat * front.toNat)
        + adm.toNat * (1 + ca.toNat * front.toNat) := by
  cases dyn <;> cases ca <;> cases inter <;> cases front <;> cases ifr <;> cases ui <;>
    cases ing <;> cases adm <;> rfl

/-! ## The conditions of the source in terms of the blocks of the cluster -/

theorem mtlsInternodeEnabled_iff (b : ClusterBuilder σ ε) :
    mtlsInternodeEnabled b = true ↔
      ∃ m, b.Instance.Spec.MTLS = some m ∧ m.InternodeEnabled = true := by
  unfold mtlsInternodeEnabled
  cases b.Instance.Spec.MTLS with
  | none => simp
  | some m => simp

theorem mtlsFrontendEnabled_iff (b : ClusterBuilder σ ε) :
    mtlsFrontendEnabled b = true ↔
      ∃ m, b.Instance.Spec.MTLS = some m ∧ m.FrontendEnabled = true := by
  unfold mtlsFrontendEnabled
  cases b.Instance.Spec.MTLS with
  | none => simp
  | some m => simp

theorem uiIngressPresent_iff (b : ClusterBuilder σ ε) :
    uiIngressPresent b = true ↔
      ∃ u g, b.Instance.Spec.UI = some u ∧ u.Ingress = some g := by
  unfold uiIngressPresent
  cases b.Instance.Spec.UI with
  | none => simp
  | some u =>
    rcases u with ⟨en, ing⟩
    cases ing with
    | none => simp
    | some g => exact ⟨fun _ => ⟨_, g, rfl, rfl⟩, fun _ => rfl⟩

theorem internalFrontendEnabled_iff (b : ClusterBuilder σ ε) :
    InternalFrontendServiceSpec.IsEnabled b.Instance.Spec.Services.InternalFrontend = true ↔
      ∃ i, b.Instance.Spec.Services.InternalFrontend = some i ∧ i.Enabled = true := by
  unfold InternalFrontendServiceSpec.IsEnabled
  cases b.Instance.Spec.Services.InternalFrontend with
  | none => simp
  | some i => simp

theorem dynamicConfigPresent_iff (b : ClusterBuilder σ ε) :
    b.Instance.Spec.DynamicConfig.isSome = true ↔
      ∃ d, b.Instance.Spec.DynamicConfig = some d := by
  cases b.Instance.Spec.DynamicConfig with
  | none => simp
  | some d => exact ⟨fun _ => ⟨d, rfl⟩, fun _ => rfl⟩

/-- The length of the output in terms of the conditions of the embedding, and its first
two entries. -/
theorem ResourceBuilders_length (b : ClusterBuilder σ ε) (bs : List (Builder σ))
    (h : ResourceBuilders b = Except.ok bs) :
    bs.length =
      2 + (4 + (InternalFrontendServiceSpec.IsEnabled
              b.Instance.Spec.Services.InternalFrontend).toNat)
          * (3 + 2 * (istioEnabled b).toNat + (serviceMonitorEnabled b).toNat)
        + b.Instance.Spec.DynamicConfig.isSome.toNat
        + b.Instance.MTLSWithCertManagerEnabled.toNat
          * (3 + 3 * (mtlsInternodeEnabled b).toNat
            + (mtlsFrontendEnabled b).toNat
              * (3 + (1 - (InternalFrontendServiceSpec.IsEnabled
                  b.Instance.Spec.Services.InternalFrontend).toNat)))
        + (uiEnabled b).toNat
          * (2 + (uiIngressPresent b).toNat
            + b.Instance.MTLSWithCertManagerEnabled.toNat * (mtlsFrontendEnabled b).toNat)
        + (adminToolsEnabled b).toNat
          * (1 + b.Instance.MTLSWithCertManagerEnabled.toNat
            * (mtlsFrontendEnabled b).toNat) ∧
    ∃ rest, bs.map Builder.identity =
      (Kind.Configmap, none) :: (Kind.FrontendService, none) :: rest := by
  have e := ResourceBuilders_ids b bs h
  constructor
  · have hl := congrArg List.length e
    rw [List.length_map] at hl
    rw [hl]
    unfold builderIds tailIdsOf
    rw [activeServices_eq, List.length_append, List.length_append, loopIds_length,
      tailIds_length]
    simp only [List.length_cons, List.length_nil]
    ring
  · rw [e]
    exact ⟨_, rfl⟩

/-! ## The claims -/

/-- C1: whenever `ResourceBuilders` succeeds, no builder identity (kind, optional service
name) occurs both in its list and in the list of `ResourcePruners`. -/
theorem C1_builders_pruners_disjoint (b : ClusterBuilder σ ε) (bs : List (Builder σ))
    (h : ResourceBuilders b = Except.ok bs) :
    ∀ x ∈ bs, ∀ p ∈ ResourcePruners b, x.identity ≠ p.identity := by
  intro x hx p hp heq
  have h1 : x.identity ∈ builderIds b := by
    rw [← ResourceBuilders_ids b bs h]
    exact List.mem_map_of_mem _ hx
  have h2 : p.identity ∈ pruneIds (uiEnabled b) (adminToolsEnabled b) := by
    rw [← ResourcePruners_ids b]
    exact List.mem_map_of_mem _ hp
  rw [heq] at h1
  exact builderIds_not_mem_pruneIds b _ h1 h2

/-- C1 at the cluster with UI enabled and admin tools disabled: the builders succeed and
share no identity with the pruners. -/
theorem C1_builders_pruners_disjoint_witness :
    ∃ bs, ResourceBuilders clusterFull = Except.ok bs ∧
      ∀ x ∈ bs, ∀ p ∈ ResourcePruners clusterFull, x.identity ≠ p.identity :=
  ⟨_, rfl, C1_builders_pruners_disjoint clusterFull _ rfl⟩

/-- C2: with every optional block absent and the lookup succeeding for the four base
services, `ResourceBuilders` returns exactly the 14 entries shared configuration, frontend
endpoint, then identity, workload and headless endpoint of frontend, history, matching and
worker in that order, and `ResourcePruners` returns exactly UI workload, UI endpoint, UI
ingress and admin-tools workload. -/
theorem C2_default_disabled (b : ClusterBuilder σ ε) (f : ServiceName → σ)
    (hIF : b.Instance.Spec.Services.InternalFrontend = none)
    (hMTLS : b.Instance.Spec.MTLS = none)
    (hMetrics : b.Instance.Spec.Metrics = none)
    (hDyn : b.Instance.Spec.DynamicConfig = none)
    (hUI : b.Instance.Spec.UI = none)
    (hAdm : b.Instance.Spec.AdminTools = none)
    (hGet : ∀ s ∈ [ServiceName.FrontendService, ServiceName.HistoryService,
      ServiceName.MatchingService, ServiceName.WorkerService],
      b.Instance.Spec.Services.GetServiceSpec s = Except.ok (f s)) :
    ResourceBuilders b = Except.ok
      [Builder.plain Kind.Configmap, Builder.plain Kind.FrontendService,
        Builder.forService Kind.ServiceAccount ServiceName.FrontendService
          (f ServiceName.FrontendService),
        Builder.forService Kind.Deployment ServiceName.FrontendService
          (f ServiceName.FrontendService),
        Builder.forService Kind.HeadlessService ServiceName.FrontendService
          (f ServiceName.FrontendService),
        Builder.forService Kind.ServiceAccount ServiceName.HistoryService
          (f ServiceName.HistoryService),
        Builder.forService Kind.Deployment ServiceName.HistoryService
          (f ServiceName.HistoryService),
        Builder.forService Kind.HeadlessService ServiceName.HistoryService
          (f ServiceName.HistoryService),
        Builder.forService Kind.ServiceAccount ServiceName.MatchingService
          (f ServiceName.MatchingService),
        Builder.forService Kind.Deployment ServiceName.MatchingService
          (f ServiceName.MatchingService),
        Builder.forService Kind.HeadlessService ServiceName.MatchingService
          (f ServiceName.MatchingService),
        Builder.forService Kind.ServiceAccount ServiceName.WorkerService
          (f ServiceName.WorkerService),
        Builder.forService Kind.Deployment ServiceName.WorkerService
          (f ServiceName.WorkerService),
        Builder.forService Kind.HeadlessService ServiceName.WorkerService
          (f ServiceName.WorkerService)]
    ∧ ResourcePruners b =
      [Builder.plain Kind.UIDeployment, Builder.plain Kind.UIService,
        Builder.plain Kind.UIIngress, Builder.plain Kind.AdminToolsDeployment] := by
  have g1 := hGet ServiceName.FrontendService (by decide)
  have g2 := hGet ServiceName.HistoryService (by decide)
  have g3 := hGet ServiceName.MatchingService (by decide)
  have g4 := hGet ServiceName.WorkerService (by decide)
  constructor
  · simp [ResourceBuilders, activeServices, serviceLoop, afterLoop, istioEnabled,
      serviceMonitorEnabled, MetricsSpec.IsEnabled, InternalFrontendServiceSpec.IsEnabled,
      TemporalCluster.MTLSWithCertManagerEnabled, uiEnabled, adminToolsEnabled,
      hIF, hMTLS, hMetrics, hDyn, hUI, hAdm, g1, g2, g3, g4]
  · simp [ResourcePruners, hUI, hAdm]

/-- C2 at the base cluster, whose lookup gives each service its number: the 14 builders
and the 4 pruners. -/
theorem C2_default_disabled_witness :
    (ResourceBuilders clusterBase).map List.length = Except.ok 14 ∧
      (ResourceBuilders clusterBase).map (List.map Builder.identity) = Except.ok
        [(Kind.Configmap, none), (Kind.FrontendService, none),
          (Kind.ServiceAccount, some ServiceName.FrontendService),
          (Kind.Deployment, some ServiceName.FrontendService),
          (Kind.HeadlessService, some ServiceName.FrontendService),
          (Kind.ServiceAccount, some ServiceName.HistoryService),
          (Kind.Deployment, some ServiceName.HistoryService),
          (Kind.HeadlessService, some ServiceName.HistoryService),
          (Kind.ServiceAccount, some ServiceName.MatchingService),
          (Kind.Deployment, some ServiceName.MatchingService),
          (Kind.HeadlessService, some ServiceName.MatchingService),
          (Kind.ServiceAccount, some ServiceName.WorkerService),
          (Kind.Deployment, some ServiceName.WorkerService),
          (Kind.HeadlessService, some ServiceName.WorkerService)] ∧
      (ResourcePruners clusterBase).length = 4 := by
  have h := C2_default_disabled clusterBase (fun s => serviceIndex s + 1)
    rfl rfl rfl rfl rfl rfl (by intro s _; rfl)
  rw [h.1, h.2]
  exact ⟨rfl, rfl, rfl⟩

/-- C3: `ResourceBuilders` fails exactly when the lookup fails for some active service;
the error returned is then the lookup error of the first failing service in enumeration
order, unchanged, and no list is returned; it returns a list exactly when every lookup of
an active service succeeds. -/
theorem C3_lookup_failure (b : ClusterBuilder σ ε) :
    ((∃ e, ResourceBuilders b = Except.error e) ↔
      ∃ s ∈ activeServices b, ∃ e,
        b.Instance.Spec.Services.GetServiceSpec s = Except.error e) ∧
    (∀ e, ResourceBuilders b = Except.error e ↔
      ∃ pre s post, activeServices b = pre ++ s :: post ∧
        (∀ t ∈ pre, ∃ specs,
          b.Instance.Spec.Services.GetServiceSpec t = Except.ok specs) ∧
        b.Instance.Spec.Services.GetServiceSpec s = Except.error e) ∧
    ((∃ bs, ResourceBuilders b = Except.ok bs) ↔
      ∀ s ∈ activeServices b, ∃ specs,
        b.Instance.Spec.Services.GetServiceSpec s = Except.ok specs) := by
  have hE : ∀ e, ResourceBuilders b = Except.error e ↔
      ∃ pre s post, activeServices b = pre ++ s :: post ∧
        (∀ t ∈ pre, ∃ specs,
          b.Instance.Spec.Services.GetServiceSpec t = Except.ok specs) ∧
        b.Instance.Spec.Services.GetServiceSpec s = Except.error e := by
    intro e
    rw [ResourceBuilders_error_iff, serviceLoop_error]
  have hO := ResourceBuilders_ok_iff b
  refine ⟨?_, hE, hO⟩
  constructor
  · rintro ⟨e, he⟩
    obtain ⟨pre, s, post, heq, _, herr⟩ := (hE e).mp he
    exact ⟨s, by rw [heq]; simp, e, herr⟩
  · rintro ⟨s, hs, e, herr⟩
    cases hr : ResourceBuilders b with
    | error e2 => exact ⟨e2, rfl⟩
    | ok bs =>
      obtain ⟨specs, hsp⟩ := hO.mp ⟨bs, hr⟩ s hs
      rw [herr] at hsp
      cases hsp

/-- C3 at the cluster whose lookup fails for matching and for worker: the error returned
is the one of matching, the first failing service. -/
theorem C3_lookup_failure_witness :
    ResourceBuilders clusterFailing = Except.error "matching: no specification" :=
  ((C3_lookup_failure clusterFailing).2.1 "matching: no specification").mpr
    ⟨[ServiceName.FrontendService, ServiceName.HistoryService], ServiceName.MatchingService,
      [ServiceName.WorkerService], rfl,
      by
        intro t ht
        simp only [List.mem_cons, List.mem_singleton, List.not_mem_nil, or_false] at ht
        rcases ht with rfl | rfl
        · exact ⟨1, rfl⟩
        · exact ⟨2, rfl⟩,
      rfl⟩

/-- C4: whenever `ResourceBuilders` succeeds, no two positions of its list hold the same
builder identity. -/
theorem C4_no_duplicates (b : ClusterBuilder σ ε) (bs : List (Builder σ))
    (h : ResourceBuilders b = Except.ok bs) : (bs.map Builder.identity).Nodup := by
  rw [ResourceBuilders_ids b bs h]
  exact builderIds_nodup b

/-- C4 at the cluster with mesh mTLS and the service monitor: the builders succeed and
their identities are pairwise distinct. -/
theorem C4_no_duplicates_witness :
    ∃ bs, ResourceBuilders clusterMesh = Except.ok bs ∧
      (bs.map Builder.identity).Nodup :=
  ⟨_, rfl, C4_no_duplicates clusterMesh _ rfl⟩

/-- C5: with certificate-authority mTLS and its internode scope enabled, the output of
`ResourceBuilders` has bootstrap issuer, root CA certificate, root CA issuer, internode
intermediate-CA certificate, internode intermediate-CA issuer, internode certificate in
this relative order; as no identity occurs twice, the order is that of their only
occurrences. -/
theorem C5_certificate_chain_order (b : ClusterBuilder σ ε) (m : MTLSSpec)
    (bs : List (Builder σ))
    (hm : b.Instance.Spec.MTLS = some m)
    (hp : m.Provider = MTLSProvider.CertManagerMTLSProvider)
    (hi : m.InternodeEnabled = true)
    (h : ResourceBuilders b = Except.ok bs) :
    List.Sublist
      [(Kind.MTLSBootstrapIssuer, none), (Kind.MTLSRootCACertificate, none),
        (Kind.MTLSRootCAIssuer, none), (Kind.MTLSInternodeIntermediateCACertificate, none),
        (Kind.MTLSInternodeIntermediateCAIssuer, none),
        (Kind.MTLSInternodeCertificate, none)]
      (bs.map Builder.identity)
    ∧ (bs.map Builder.identity).Nodup := by
  rw [ResourceBuilders_ids b bs h]
  refine ⟨?_, builderIds_nodup b⟩
  have hca := certManager_enabled b m hm hp
  have hin : mtlsInternodeEnabled b = true := by simp [mtlsInternodeEnabled, hm, hi]
  unfold builderIds tailIdsOf
  rw [hca, hin]
  exact (tailIds_chain_sublist _ _ _ _ _ _).trans (List.sublist_append_right _ _)

/-- C5 at the cluster with certificate-authority mTLS on both scopes. -/
theorem C5_certificate_chain_order_witness :
    ∃ bs, ResourceBuilders clusterFull = Except.ok bs ∧
      List.Sublist
        [(Kind.MTLSBootstrapIssuer, none), (Kind.MTLSRootCACertificate, none),
          (Kind.MTLSRootCAIssuer, none), (Kind.MTLSInternodeIntermediateCACertificate, none),
          (Kind.MTLSInternodeIntermediateCAIssuer, none),
          (Kind.MTLSInternodeCertificate, none)]
        (bs.map Builder.identity)
      ∧ (bs.map Builder.identity).Nodup :=
  ⟨_, rfl, C5_certificate_chain_order clusterFull
    ⟨MTLSProvider.CertManagerMTLSProvider, true, true⟩ _ rfl rfl rfl rfl⟩

/-- C6: with certificate-authority mTLS and its frontend scope enabled, the worker-frontend
client certificate entry is in the output of `ResourceBuilders` exactly when
internal-frontend is not enabled, and then it occurs exactly once. -/
theorem C6_worker_client_certificate (b : ClusterBuilder σ ε) (m : MTLSSpec)
    (bs : List (Builder σ))
    (hm : b.Instance.Spec.MTLS = some m)
    (hp : m.Provider = MTLSProvider.CertManagerMTLSProvider)
    (hf : m.FrontendEnabled = true)
    (h : ResourceBuilders b = Except.ok bs) :
    ((Kind.WorkerFrontendClientCertificate, none) ∈ bs.map Builder.identity ↔
      InternalFrontendServiceSpec.IsEnabled b.Instance.Spec.Services.InternalFrontend = false)
    ∧ occurrences (Kind.WorkerFrontendClientCertificate, none) (bs.map Builder.identity) =
      (if InternalFrontendServiceSpec.IsEnabled b.Instance.Spec.Services.InternalFrontend
        then 0 else 1) := by
  rw [ResourceBuilders_ids b bs h]
  have hca := certManager_enabled b m hm hp
  have hfr : mtlsFrontendEnabled b = true := by simp [mtlsFrontendEnabled, hm, hf]
  have hmem : (Kind.WorkerFrontendClientCertificate, none) ∈ builderIds b ↔
      InternalFrontendServiceSpec.IsEnabled b.Instance.Spec.Services.InternalFrontend
        = false := by
    rw [mem_builderIds_tail b _ rfl (by decide) (by decide)]
    unfold tailIdsOf
    rw [hca, hfr]
    simp [tailIds]
  refine ⟨hmem, ?_⟩
  cases hifr :
      InternalFrontendServiceSpec.IsEnabled b.Instance.Spec.Services.InternalFrontend with
  | true =>
    have hno : (Kind.WorkerFrontendClientCertificate, none) ∉ builderIds b := by
      rw [hmem, hifr]; simp
    simpa using occurrences_eq_zero _ _ hno
  | false =>
    simpa using occurrences_eq_one _ _ (builderIds_nodup b) (hmem.mpr hifr)

/-- C6 at the cluster with certificate-authority mTLS on both scopes and no internal
frontend: the worker-frontend client certificate is there once. -/
theorem C6_worker_client_certificate_witness :
    ∃ bs, ResourceBuilders clusterCA = Except.ok bs ∧
      occurrences (Kind.WorkerFrontendClientCertificate, none) (bs.map Builder.identity) = 1 :=
  ⟨_, rfl, (C6_worker_client_certificate clusterCA
    ⟨MTLSProvider.CertManagerMTLSProvider, true, true⟩ _ rfl rfl rfl rfl).2⟩

/-- C7: the UI ingress entry is in the output of `ResourceBuilders` exactly when the UI
block is present and enabled and its ingress sub-block is present; and of two clusters
with UI enabled that differ only in the presence of the ingress sub-block, the output
with the ingress holds the UI ingress entry once and, with that entry removed, is the
output without the ingress, in the same order. -/
theorem C7_ui_ingress (b : ClusterBuilder σ ε) :
    (∀ bs, ResourceBuilders b = Except.ok bs →
      ((Kind.UIIngress, none) ∈ bs.map Builder.identity ↔
        ∃ u, b.Instance.Spec.UI = some u ∧ u.Enabled = true ∧ u.Ingress.isSome = true)) ∧
    (∀ (g : UIIngressSpec) (bs1 bs2 : List (Builder σ)),
      ResourceBuilders (withUI b (some ⟨true, some g⟩)) = Except.ok bs1 →
      ResourceBuilders (withUI b (some ⟨true, none⟩)) = Except.ok bs2 →
      occurrences (Kind.UIIngress, none) (bs1.map Builder.identity) = 1 ∧
      (Kind.UIIngress, none) ∉ bs2.map Builder.identity ∧
      (bs1.map Builder.identity).filter (fun x => decide (x ≠ (Kind.UIIngress, none)))
        = bs2.map Builder.identity) := by
  constructor
  · intro bs h
    rw [ResourceBuilders_ids b bs h, mem_builderIds_tail b _ rfl (by decide) (by decide)]
    unfold tailIdsOf uiEnabled uiIngressPresent
    cases hu : b.Instance.Spec.UI with
    | none => simp [tailIds]
    | some u => simp [tailIds]
  · intro g bs1 bs2 h1 h2
    have hin : (Kind.UIIngress, none) ∈ builderIds (withUI b (some ⟨true, some g⟩)) := by
      rw [mem_builderIds_tail _ _ rfl (by decide) (by decide)]
      show (Kind.UIIngress, none) ∈ tailIds _ _ _ _ _ true true _
      simp [tailIds]
    have hout : (Kind.UIIngress, none) ∉ builderIds (withUI b (some ⟨true, none⟩)) := by
      rw [mem_builderIds_tail _ _ rfl (by decide) (by decide)]
      show (Kind.UIIngress, none) ∉ tailIds _ _ _ _ _ true false _
      simp [tailIds]
    rw [ResourceBuilders_ids _ bs1 h1, ResourceBuilders_ids _ bs2 h2]
    refine ⟨occurrences_eq_one _ _ (builderIds_nodup _) hin, hout, ?_⟩
    rw [builderIds_withUI, builderIds_withUI, List.filter_append]
    show _ ++ List.filter _ (tailIds _ _ _ _ _ true true _) = _
    rw [tailIds_filter_ingress]
    congr 1
    rw [List.filter_eq_self]
    intro x hx
    have hne : x ≠ (Kind.UIIngress, none) := by
      rintro rfl
      exact not_mem_headLoop _ _ _ _ rfl (by decide) (by decide) hx
    simpa using hne

/-- C7 at the cluster with UI enabled and an ingress: the ingress entry is in the output,
and removing the ingress sub-block removes exactly that entry. -/
theorem C7_ui_ingress_witness :
    (∃ bs, ResourceBuilders clusterFull = Except.ok bs ∧
      (Kind.UIIngress, none) ∈ bs.map Builder.identity) ∧
    (∃ bs1 bs2, ResourceBuilders (withUI clusterFull (some ⟨true, some ⟨⟩⟩)) = Except.ok bs1 ∧
      ResourceBuilders (withUI clusterFull (some ⟨true, none⟩)) = Except.ok bs2 ∧
      occurrences (Kind.UIIngress, none) (bs1.map Builder.identity) = 1 ∧
      (Kind.UIIngress, none) ∉ bs2.map Builder.identity ∧
      (bs1.map Builder.identity).filter (fun x => decide (x ≠ (Kind.UIIngress, none)))
        = bs2.map Builder.identity) :=
  ⟨⟨_, rfl, ((C7_ui_ingress clusterFull).1 _ rfl).mpr ⟨⟨true, some ⟨⟩⟩, rfl, rfl, rfl⟩⟩,
    ⟨_, _, rfl, rfl, (C7_ui_ingress clusterFull).2 ⟨⟩ _ _ rfl rfl⟩⟩

/-- C8: `ResourcePruners` returns exactly UI workload, UI endpoint, UI ingress when the UI
block is absent or present with enabled false (nothing for UI otherwise), followed by
admin-tools workload when the admin-tools block is absent or present with enabled false
(nothing otherwise); it is a total function and emits nothing else. -/
theorem C8_pruners_exact (b : ClusterBuilder σ ε) :
    ResourcePruners b =
      (match b.Instance.Spec.UI with
        | none => [Builder.plain Kind.UIDeployment, Builder.plain Kind.UIService,
            Builder.plain Kind.UIIngress]
        | some u =>
          if u.Enabled = false then [Builder.plain Kind.UIDeployment,
            Builder.plain Kind.UIService, Builder.plain Kind.UIIngress]
          else [])
      ++ (match b.Instance.Spec.AdminTools with
        | none => [Builder.plain Kind.AdminToolsDeployment]
        | some a =>
          if a.Enabled = false then [Builder.plain Kind.AdminToolsDeployment] else []) := by
  unfold ResourcePruners uiEnabled adminToolsEnabled
  cases b.Instance.Spec.UI with
  | none =>
    cases b.Instance.Spec.AdminTools with
    | none => simp
    | some a => rcases a with ⟨_ | _⟩ <;> simp
  | some u =>
    cases b.Instance.Spec.AdminTools with
    | none => rcases u with ⟨_ | _, _⟩ <;> simp
    | some a => rcases u with ⟨_ | _, _⟩ <;> rcases a with ⟨_ | _⟩ <;> simp

/-- C9 fails as stated: on the cluster with certificate-authority mTLS on the frontend
scope and no UI block, the otherwise identical cluster with UI enabled emits the UI client
certificate, an entry the cluster itself does not emit, and the prune list of the cluster
does not hold it; the same holds of the admin-tools client certificate. -/
theorem C9_pruners_mirror_counterexample :
    clusterCA.Instance.Spec.UI = none ∧ clusterCA.Instance.Spec.AdminTools = none ∧
    (∃ bs bs1 bs2, ResourceBuilders clusterCA = Except.ok bs ∧
      ResourceBuilders (withUI clusterCA (some ⟨true, none⟩)) = Except.ok bs1 ∧
      ResourceBuilders (withAdminTools clusterCA (some ⟨true⟩)) = Except.ok bs2 ∧
      (Kind.UIFrontendClientCertificate, none) ∈ bs1.map Builder.identity ∧
      (Kind.UIFrontendClientCertificate, none) ∉ bs.map Builder.identity ∧
      (Kind.AdminToolsFrontendClientCertificate, none) ∈ bs2.map Builder.identity ∧
      (Kind.AdminToolsFrontendClientCertificate, none) ∉ bs.map Builder.identity) ∧
    (Kind.UIFrontendClientCertificate, none) ∉
      (ResourcePruners clusterCA).map Builder.identity ∧
    (Kind.AdminToolsFrontendClientCertificate, none) ∉
      (ResourcePruners clusterCA).map Builder.identity := by
  refine ⟨rfl, rfl, ⟨_, _, _, rfl, rfl, rfl, ?_, ?_, ?_, ?_⟩, ?_, ?_⟩ <;> decide

/-- C9 as amended: when UI is absent or disabled, every entry that `ResourceBuilders`
emits on the otherwise identical cluster with UI enabled and does not emit on the cluster
itself, other than the UI client certificate, is in the output of `ResourcePruners`, and
the UI workload and UI endpoint are such entries; likewise for admin tools, the
admin-tools workload being such an entry; neither client certificate is ever in the
output of `ResourcePruners`. -/
theorem C9_pruners_mirror_amended (b : ClusterBuilder σ ε) :
    ((b.Instance.Spec.UI = none ∨
        ∃ u, b.Instance.Spec.UI = some u ∧ u.Enabled = false) →
      ∀ (g : Option UIIngressSpec) (bs bs1 : List (Builder σ)),
        ResourceBuilders b = Except.ok bs →
        ResourceBuilders (withUI b (some ⟨true, g⟩)) = Except.ok bs1 →
        (∀ x ∈ bs1.map Builder.identity, x ∉ bs.map Builder.identity →
          x ≠ (Kind.UIFrontendClientCertificate, none) →
          x ∈ (ResourcePruners b).map Builder.identity) ∧
        (Kind.UIDeployment, none) ∈ bs1.map Builder.identity ∧
        (Kind.UIDeployment, none) ∉ bs.map Builder.identity ∧
        (Kind.UIService, none) ∈ bs1.map Builder.identity ∧
        (Kind.UIService, none) ∉ bs.map Builder.identity) ∧
    ((b.Instance.Spec.AdminTools = none ∨
        ∃ a, b.Instance.Spec.AdminTools = some a ∧ a.Enabled = false) →
      ∀ (bs bs2 : List (Builder σ)),
        ResourceBuilders b = Except.ok bs →
        ResourceBuilders (withAdminTools b (some ⟨true⟩)) = Except.ok bs2 →
        (∀ x ∈ bs2.map Builder.identity, x ∉ bs.map Builder.identity →
          x ≠ (Kind.AdminToolsFrontendClientCertificate, none) →
          x ∈ (ResourcePruners b).map Builder.identity) ∧
        (Kind.AdminToolsDeployment, none) ∈ bs2.map Builder.identity ∧
        (Kind.AdminToolsDeployment, none) ∉ bs.map Builder.identity) ∧
    (Kind.UIFrontendClientCertificate, none) ∉ (ResourcePruners b).map Builder.identity ∧
    (Kind.AdminToolsFrontendClientCertificate, none) ∉
      (ResourcePruners b).map Builder.identity := by
  refine ⟨?_, ?_, ?_, ?_⟩
  · intro hui g bs bs1 h h1
    have hu := uiEnabled_false b hui
    rw [ResourceBuilders_ids _ bs h, ResourceBuilders_ids _ bs1 h1, ResourcePruners_ids,
      builderIds_withUI, hu]
    have hb : builderIds b =
        [(Kind.Configmap, none), (Kind.FrontendService, none)]
          ++ (activeServices b).flatMap
            (chunkIds (istioEnabled b) (serviceMonitorEnabled b))
          ++ tailIds b.Instance.Spec.DynamicConfig.isSome
              b.Instance.MTLSWithCertManagerEnabled
              (mtlsInternodeEnabled b) (mtlsFrontendEnabled b)
              (InternalFrontendServiceSpec.IsEnabled
                b.Instance.Spec.Services.InternalFrontend)
              false (uiIngressPresent b) (adminToolsEnabled b) := by
      rw [← hu]; rfl
    rw [hb]
    refine ⟨?_, ?_, ?_, ?_, ?_⟩
    · intro x hx hnx hne
      rcases List.mem_append.mp hx with hx1 | hx1
      · exact absurd (List.mem_append_left _ hx1) hnx
      · exact tailIds_ui_difference _ _ _ _ _ _ _ _ x hx1
          (fun hc => hnx (List.mem_append_right _ hc)) hne
    · exact List.mem_append_right _ (by simp [tailIds])
    · intro hc
      rcases List.mem_append.mp hc with hc1 | hc1
      · exact not_mem_headLoop _ _ _ _ rfl (by decide) (by decide) hc1
      · simp [tailIds] at hc1
    · exact List.mem_append_right _ (by simp [tailIds])
    · intro hc
      rcases List.mem_append.mp hc with hc1 | hc1
      · exact not_mem_headLoop _ _ _ _ rfl (by decide) (by decide) hc1
      · simp [tailIds] at hc1
  · intro hadm bs bs2 h h2
    have ha := adminToolsEnabled_false b hadm
    rw [ResourceBuilders_ids _ bs h, ResourceBuilders_ids _ bs2 h2, ResourcePruners_ids,
      builderIds_withAdminTools, ha]
    have hb : builderIds b =
        [(Kind.Configmap, none), (Kind.FrontendService, none)]
          ++ (activeServices b).flatMap
            (chunkIds (istioEnabled b) (serviceMonitorEnabled b))
          ++ tailIds b.Instance.Spec.DynamicConfig.isSome
              b.Instance.MTLSWithCertManagerEnabled
              (mtlsInternodeEnabled b) (mtlsFrontendEnabled b)
              (InternalFrontendServiceSpec.IsEnabled
                b.Instance.Spec.Services.InternalFrontend)
              (uiEnabled b) (uiIngressPresent b) false := by
      rw [← ha]; rfl
    rw [hb]
    refine ⟨?_, ?_, ?_⟩
    · intro x hx hnx hne
      rcases List.mem_append.mp hx with hx1 | hx1
      · exact absurd (List.mem_append_left _ hx1) hnx
      · exact tailIds_adm_difference _ _ _ _ _ _ _ x hx1
          (fun hc => hnx (List.mem_append_right _ hc)) hne
    · exact List.mem_append_right _ (by simp [tailIds])
    · intro hc
      rcases List.mem_append.mp hc with hc1 | hc1
      · exact not_mem_headLoop _ _ _ _ rfl (by decide) (by decide) hc1
      · simp [tailIds] at hc1
  · rw [ResourcePruners_ids]
    simp [pruneIds]
  · rw [ResourcePruners_ids]
    simp [pruneIds]

/-- C9 as amended, at the cluster with certificate-authority mTLS and no UI block: the UI
ingress is emitted once UI is enabled with an ingress and is in the prune list of the
cluster. -/
theorem C9_pruners_mirror_amended_witness :
    ∃ bs bs1, ResourceBuilders clusterCA = Except.ok bs ∧
      ResourceBuilders (withUI clusterCA (some ⟨true, some ⟨⟩⟩)) = Except.ok bs1 ∧
      (Kind.UIIngress, none) ∈ bs1.map Builder.identity ∧
      (Kind.UIIngress, none) ∈ (ResourcePruners clusterCA).map Builder.identity :=
  ⟨_, _, rfl, rfl, by decide,
    ((C9_pruners_mirror_amended clusterCA).1 (Or.inl rfl) (some ⟨⟩) _ _ rfl rfl).1
      (Kind.UIIngress, none) (by decide) (by decide) (by decide)⟩

/-- C10 fails as stated: on the cluster with mesh mTLS and the service monitor enabled,
the mesh peer-authentication entry of frontend is at position 5 of the output, before
the identity entry of history at position 8. -/
theorem C10_step_order_counterexample :
    istioEnabled clusterMesh = true ∧ serviceMonitorEnabled clusterMesh = true ∧
    ∃ bs, ResourceBuilders clusterMesh = Except.ok bs ∧
      (bs.map Builder.identity)[5]? =
        some (Kind.PeerAuthentication, some ServiceName.FrontendService) ∧
      (bs.map Builder.identity)[8]? =
        some (Kind.ServiceAccount, some ServiceName.HistoryService) :=
  ⟨rfl, rfl, _, rfl, rfl, rfl⟩

/-- C10 as amended: in the output of `ResourceBuilders` the entries are grouped service by
service; the identity, workload and headless-endpoint entries of a service occur before
every mesh peer-authentication, mesh traffic-routing and scrape entry of the same
service and of the services after it in the enumeration order, and after those of the
services before it. -/
theorem C10_step_order_amended (b : ClusterBuilder σ ε) (bs : List (Builder σ))
    (i j : Nat) (k3 k4 : Kind) (s t : ServiceName)
    (h : ResourceBuilders b = Except.ok bs)
    (h3 : k3 ∈ step3Kinds) (h4 : k4 ∈ step4Kinds)
    (hi : (bs.map Builder.identity)[i]? = some (k3, some s))
    (hj : (bs.map Builder.identity)[j]? = some (k4, some t)) :
    (serviceIndex s ≤ serviceIndex t → i < j) ∧
    (serviceIndex t < serviceIndex s → j < i) := by
  rw [ResourceBuilders_ids b bs h] at hi hj
  have hs := builderIds_sorted b
  have hk3 : 2 ≤ kindIndex k3 ∧ kindIndex k3 ≤ 4 := by
    simp only [step3Kinds, List.mem_cons, List.mem_singleton, List.not_mem_nil,
      or_false] at h3
    rcases h3 with rfl | rfl | rfl <;> decide
  have hk4 : 5 ≤ kindIndex k4 ∧ kindIndex k4 ≤ 7 := by
    simp only [step4Kinds, List.mem_cons, List.mem_singleton, List.not_mem_nil,
      or_false] at h4
    rcases h4 with rfl | rfl | rfl <;> decide
  constructor
  · intro hst
    apply index_lt_of_rank_lt _ hs i j _ _ hi hj
    simp only [rank]
    omega
  · intro hts
    apply index_lt_of_rank_lt _ hs j i _ _ hj hi
    simp only [rank]
    omega

/-- C10 as amended, at the cluster with mesh mTLS and the service monitor: the identity
entry of history (position 8) is before the scrape entry of history (position 13) and
after the peer-authentication entry of frontend (position 5). -/
theorem C10_step_order_amended_witness :
    ∃ bs, ResourceBuilders clusterMesh = Except.ok bs ∧
      (bs.map Builder.identity)[8]? =
        some (Kind.ServiceAccount, some ServiceName.HistoryService) ∧
      (bs.map Builder.identity)[13]? =
        some (Kind.ServiceMonitor, some ServiceName.HistoryService) ∧
      (bs.map Builder.identity)[5]? =
        some (Kind.PeerAuthentication, some ServiceName.FrontendService) ∧
      8 < 13 ∧ 5 < 8 :=
  ⟨_, rfl, rfl, rfl, rfl,
    (C10_step_order_amended clusterMesh _ 8 13 Kind.ServiceAccount Kind.ServiceMonitor
      ServiceName.HistoryService ServiceName.HistoryService rfl (by decide) (by decide)
      rfl rfl).1 (Nat.le_refl _),
    (C10_step_order_amended clusterMesh _ 8 5 Kind.ServiceAccount Kind.PeerAuthentication
      ServiceName.HistoryService ServiceName.FrontendService rfl (by decide) (by decide)
      rfl rfl).2 (by decide)⟩

/-- C11: the services for which `ResourceBuilders` emits per-service entries are, in
order and each once, frontend, history, matching, worker, followed by internal-frontend
exactly when it is enabled: the services of the identity entries, of the workload entries
and of the headless-endpoint entries are this list, and every entry with a service name
names a service of it. With every other optional block absent, enabling internal-frontend
turns the output of 14 entries into one of 17, the former followed by the identity,
workload and headless-endpoint entries of internal-frontend. -/
theorem C11_active_services (b : ClusterBuilder σ ε) :
    (∀ bs, ResourceBuilders b = Except.ok bs →
      (∀ k ∈ step3Kinds,
        (bs.map Builder.identity).filterMap (fun x : BuilderId => if x.1 = k then x.2 else none)
          = baseServices ++
            (if InternalFrontendServiceSpec.IsEnabled
                b.Instance.Spec.Services.InternalFrontend
              then [ServiceName.InternalFrontendService] else [])) ∧
      (∀ x ∈ bs.map Builder.identity, ∀ s, x.2 = some s →
        s ∈ baseServices ++
          (if InternalFrontendServiceSpec.IsEnabled
              b.Instance.Spec.Services.InternalFrontend
            then [ServiceName.InternalFrontendService] else []))) ∧
    (b.Instance.Spec.MTLS = none → b.Instance.Spec.Metrics = none →
      b.Instance.Spec.DynamicConfig = none → b.Instance.Spec.UI = none →
      b.Instance.Spec.AdminTools = none →
      ∀ bs14 bs17 : List (Builder σ),
        ResourceBuilders (withInternalFrontend b none) = Except.ok bs14 →
        ResourceBuilders (withInternalFrontend b (some ⟨true⟩)) = Except.ok bs17 →
        bs14.length = 14 ∧ bs17.length = 17 ∧
        bs17.map Builder.identity = bs14.map Builder.identity ++
          [(Kind.ServiceAccount, some ServiceName.InternalFrontendService),
            (Kind.Deployment, some ServiceName.InternalFrontendService),
            (Kind.HeadlessService, some ServiceName.InternalFrontendService)]) := by
  constructor
  · intro bs h
    rw [ResourceBuilders_ids b bs h]
    constructor
    · intro k hk
      have hb := builderIds_withInternalFrontend b b.Instance.Spec.Services.InternalFrontend
      have hbb : builderIds (withInternalFrontend b
          b.Instance.Spec.Services.InternalFrontend) = builderIds b := rfl
      rw [hbb] at hb
      rw [hb, List.filterMap_append, tailIds_filterMap, List.append_nil]
      exact headLoop_filterMap _ _ _ k hk
    · intro x hx s hs
      rw [← activeServices_eq]
      exact mem_builderIds_service b x s hx hs
  · intro hM hMe hD hU hA bs14 bs17 h14 h17
    have e14 := ResourceBuilders_ids _ bs14 h14
    have e17 := ResourceBuilders_ids _ bs17 h17
    rw [builderIds_withInternalFrontend] at e14 e17
    have hmesh : istioEnabled b = false := by simp [istioEnabled, hM]
    have hmon : serviceMonitorEnabled b = false := by
      simp [serviceMonitorEnabled, MetricsSpec.IsEnabled, hMe]
    have hca : b.Instance.MTLSWithCertManagerEnabled = false := by
      simp [TemporalCluster.MTLSWithCertManagerEnabled, hM]
    have hui : uiEnabled b = false := by simp [uiEnabled, hU]
    have hadm : adminToolsEnabled b = false := by simp [adminToolsEnabled, hA]
    rw [hmesh, hmon, hca, hui, hadm, hD] at e14 e17
    have l14 := congrArg List.length e14
    have l17 := congrArg List.length e17
    rw [List.length_map] at l14 l17
    refine ⟨?_, ?_, ?_⟩
    · rw [l14]
      cases mtlsInternodeEnabled b <;> cases mtlsFrontendEnabled b <;>
        cases uiIngressPresent b <;> rfl
    · rw [l17]
      cases mtlsInternodeEnabled b <;> cases mtlsFrontendEnabled b <;>
        cases uiIngressPresent b <;> rfl
    · rw [e14, e17]
      cases mtlsInternodeEnabled b <;> cases mtlsFrontendEnabled b <;>
        cases uiIngressPresent b <;> rfl

/-- C11 at the base cluster: enabling internal-frontend makes the 14 entries 17. -/
theorem C11_active_services_witness :
    ∃ bs14 bs17,
      ResourceBuilders (withInternalFrontend clusterBase none) = Except.ok bs14 ∧
      ResourceBuilders (withInternalFrontend clusterBase (some ⟨true⟩)) = Except.ok bs17 ∧
      bs14.length = 14 ∧ bs17.length = 17 ∧
      bs17.map Builder.identity = bs14.map Builder.identity ++
        [(Kind.ServiceAccount, some ServiceName.InternalFrontendService),
          (Kind.Deployment, some ServiceName.InternalFrontendService),
          (Kind.HeadlessService, some ServiceName.InternalFrontendService)] :=
  ⟨_, _, rfl, rfl,
    (C11_active_services clusterBase).2 rfl rfl rfl rfl rfl _ _ rfl rfl⟩

/-- C12: with internal-frontend disabled and neither UI nor admin tools enabled, the output
of `ResourceBuilders` with mTLS set to the certificate-authority provider and both scopes
enabled is the output for the same cluster without mTLS block followed by exactly the 10
entries bootstrap issuer, root CA certificate, root CA issuer, internode intermediate-CA
certificate, internode intermediate-CA issuer, internode certificate, frontend
intermediate-CA certificate, frontend intermediate-CA issuer, frontend certificate,
worker-frontend client certificate. -/
theorem C12_certificate_authority_adds_ten (b : ClusterBuilder σ ε)
    (bs0 bs1 : List (Builder σ))
    (hifr : InternalFrontendServiceSpec.IsEnabled
      b.Instance.Spec.Services.InternalFrontend = false)
    (hui : b.Instance.Spec.UI = none ∨
      ∃ u, b.Instance.Spec.UI = some u ∧ u.Enabled = false)
    (hadm : b.Instance.Spec.AdminTools = none ∨
      ∃ a, b.Instance.Spec.AdminTools = some a ∧ a.Enabled = false)
    (h0 : ResourceBuilders (withMTLS b none) = Except.ok bs0)
    (h1 : ResourceBuilders
      (withMTLS b (some ⟨MTLSProvider.CertManagerMTLSProvider, true, true⟩)) =
        Except.ok bs1) :
    bs1.map Builder.identity = bs0.map Builder.identity ++
      [(Kind.MTLSBootstrapIssuer, none), (Kind.MTLSRootCACertificate, none),
        (Kind.MTLSRootCAIssuer, none),
        (Kind.MTLSInternodeIntermediateCACertificate, none),
        (Kind.MTLSInternodeIntermediateCAIssuer, none),
        (Kind.MTLSInternodeCertificate, none),
        (Kind.MTLSFrontendIntermediateCACertificate, none),
        (Kind.MTLSFrontendIntermediateCAIssuer, none),
        (Kind.MTLSFrontendCertificate, none),
        (Kind.WorkerFrontendClientCertificate, none)] := by
  rw [ResourceBuilders_ids _ bs0 h0, ResourceBuilders_ids _ bs1 h1,
    builderIds_withMTLS_none, builderIds_withMTLS_certManager, hifr,
    uiEnabled_false b hui, adminToolsEnabled_false b hadm, tailIds_certManager_append,
    List.append_assoc _ (tailIds _ _ _ _ _ _ _ _) _]

/-- C12 at the base cluster: certificate-authority mTLS on both scopes adds the 10
certificate entries after the 14 base entries. -/
theorem C12_certificate_authority_adds_ten_witness :
    ∃ bs0 bs1, ResourceBuilders (withMTLS clusterBase none) = Except.ok bs0 ∧
      ResourceBuilders (withMTLS clusterBase
        (some ⟨MTLSProvider.CertManagerMTLSProvider, true, true⟩)) = Except.ok bs1 ∧
      bs0.length = 14 ∧ bs1.length = 24 ∧
      bs1.map Builder.identity = bs0.map Builder.identity ++
        [(Kind.MTLSBootstrapIssuer, none), (Kind.MTLSRootCACertificate, none),
          (Kind.MTLSRootCAIssuer, none),
          (Kind.MTLSInternodeIntermediateCACertificate, none),
          (Kind.MTLSInternodeIntermediateCAIssuer, none),
          (Kind.MTLSInternodeCertificate, none),
          (Kind.MTLSFrontendIntermediateCACertificate, none),
          (Kind.MTLSFrontendIntermediateCAIssuer, none),
          (Kind.MTLSFrontendCertificate, none),
          (Kind.WorkerFrontendClientCertificate, none)] :=
  ⟨_, _, rfl, rfl, rfl, rfl,
    C12_certificate_authority_adds_ten clusterBase _ _ rfl (Or.inl rfl) (Or.inl rfl)
      rfl rfl⟩

/-- C13: with certificate-authority mTLS and its frontend scope enabled, switching UI from
absent or disabled to enabled with an ingress sub-block adds to the output of
`ResourceBuilders` exactly the 4 entries UI workload, UI endpoint, UI ingress, UI client
certificate, contiguous and in that order, none of them in the output before, all other
entries and their order unchanged; and the output of `ResourcePruners` then holds no UI
workload, UI endpoint or UI ingress entry. -/
theorem C13_ui_adds_four (b : ClusterBuilder σ ε) (m : MTLSSpec) (u0 : Option UISpec)
    (g : UIIngressSpec) (bs0 bs1 : List (Builder σ))
    (hm : b.Instance.Spec.MTLS = some m)
    (hp : m.Provider = MTLSProvider.CertManagerMTLSProvider)
    (hf : m.FrontendEnabled = true)
    (hu0 : u0 = none ∨ ∃ u, u0 = some u ∧ u.Enabled = false)
    (h0 : ResourceBuilders (withUI b u0) = Except.ok bs0)
    (h1 : ResourceBuilders (withUI b (some ⟨true, some g⟩)) = Except.ok bs1) :
    (∃ pre post, bs0.map Builder.identity = pre ++ post ∧
      bs1.map Builder.identity = pre ++
        [(Kind.UIDeployment, none), (Kind.UIService, none), (Kind.UIIngress, none),
          (Kind.UIFrontendClientCertificate, none)] ++ post) ∧
    (∀ x ∈ [(Kind.UIDeployment, none), (Kind.UIService, none), (Kind.UIIngress, none),
        (Kind.UIFrontendClientCertificate, (none : Option ServiceName))],
      x ∉ bs0.map Builder.identity) ∧
    (∀ x ∈ (ResourcePruners (withUI b (some ⟨true, some g⟩))).map Builder.identity,
      x.1 ∉ [Kind.UIDeployment, Kind.UIService, Kind.UIIngress]) := by
  have hca := certManager_enabled b m hm hp
  have hfr : mtlsFrontendEnabled b = true := by simp [mtlsFrontendEnabled, hm, hf]
  have e0 := ResourceBuilders_ids _ bs0 h0
  have e1 := ResourceBuilders_ids _ bs1 h1
  rw [builderIds_withUI_option, uiEnabled_withUI_false b u0 hu0, hca, hfr] at e0
  rw [builderIds_withUI, hca, hfr] at e1
  refine ⟨?_, ?_, ?_⟩
  · refine ⟨[(Kind.Configmap, none), (Kind.FrontendService, none)]
        ++ (activeServices b).flatMap
          (chunkIds (istioEnabled b) (serviceMonitorEnabled b))
        ++ tailIds b.Instance.Spec.DynamicConfig.isSome true (mtlsInternodeEnabled b) true
            (InternalFrontendServiceSpec.IsEnabled
              b.Instance.Spec.Services.InternalFrontend) false false false,
      (if adminToolsEnabled b then [(Kind.AdminToolsDeployment, none),
          (Kind.AdminToolsFrontendClientCertificate, none)] else []), ?_, ?_⟩
    · rw [e0, tailIds_ui_off_split]
      simp only [List.append_assoc]
    · rw [e1]
      show _ ++ tailIds _ true _ true _ true true _ = _
      rw [tailIds_ui_on_split]
      simp only [List.append_assoc]
  · intro x hx hmem
    rw [e0] at hmem
    rcases List.mem_append.mp hmem with hc | hc
    · have hx2 : x.2 = none ∧ x.1 ≠ Kind.Configmap ∧ x.1 ≠ Kind.FrontendService := by
        simp only [List.mem_cons, List.mem_singleton, List.not_mem_nil, or_false] at hx
        rcases hx with rfl | rfl | rfl | rfl <;> simp
      exact not_mem_headLoop _ _ _ x hx2.1 hx2.2.1 hx2.2.2 hc
    · exact not_mem_tailIds_ui_off _ _ _ _ _ _ _ x hx hc
  · intro x hx
    rw [ResourcePruners_ids] at hx
    have hu : uiEnabled (withUI b (some ⟨true, some g⟩)) = true := rfl
    rw [hu] at hx
    simp only [pruneIds, List.mem_append, List.mem_ite_nil_left, List.mem_cons,
      List.mem_singleton, List.not_mem_nil, or_false, if_true] at hx
    rcases hx with hx | hx
    · simp at hx
    · rw [hx.2]
      simp

/-- C13 at the cluster with certificate-authority mTLS and no UI block: enabling UI with
an ingress adds the 4 UI entries after the 24 entries already there. -/
theorem C13_ui_adds_four_witness :
    ∃ bs0 bs1, ResourceBuilders (withUI clusterCA none) = Except.ok bs0 ∧
      ResourceBuilders (withUI clusterCA (some ⟨true, some ⟨⟩⟩)) = Except.ok bs1 ∧
      bs0.length = 24 ∧ bs1.length = 28 ∧
      ∃ pre post, bs0.map Builder.identity = pre ++ post ∧
        bs1.map Builder.identity = pre ++
          [(Kind.UIDeployment, none), (Kind.UIService, none), (Kind.UIIngress, none),
            (Kind.UIFrontendClientCertificate, none)] ++ post :=
  ⟨_, _, rfl, rfl, rfl, rfl,
    (C13_ui_adds_four clusterCA ⟨MTLSProvider.CertManagerMTLSProvider, true, true⟩ none ⟨⟩
      _ _ rfl rfl rfl (Or.inl rfl) rfl rfl).1⟩

/-- C14: the output of `ResourceBuilders` holds a scrape (service-monitor) entry for a
service exactly when the service is active and metrics is enabled and the prometheus
block, its scrape-config block and its service-monitor block are present and the
service-monitor enabled flag is true; then there is exactly one scrape entry per active
service, and when a level is absent or false there is no scrape entry; no setting of the
metrics block makes `ResourceBuilders` fail, which returns a list whenever the lookups
succeed. -/
theorem C14_service_monitor (b : ClusterBuilder σ ε) :
    ((∀ s ∈ activeServices b, ∃ specs,
        b.Instance.Spec.Services.GetServiceSpec s = Except.ok specs) →
      ∃ bs, ResourceBuilders b = Except.ok bs) ∧
    ∀ bs, ResourceBuilders b = Except.ok bs →
      (∀ s, (Kind.ServiceMonitor, some s) ∈ bs.map Builder.identity ↔
        s ∈ activeServices b ∧
          ∃ m p sc sm, b.Instance.Spec.Metrics = some m ∧ m.Enabled = true ∧
            m.Prometheus = some p ∧ p.ScrapeConfig = some sc ∧
            sc.ServiceMonitor = some sm ∧ sm.Enabled = true) ∧
      (∀ x ∈ bs.map Builder.identity, x.1 = Kind.ServiceMonitor →
        ∃ s ∈ activeServices b, x.2 = some s) ∧
      ((∃ m p sc sm, b.Instance.Spec.Metrics = some m ∧ m.Enabled = true ∧
            m.Prometheus = some p ∧ p.ScrapeConfig = some sc ∧
            sc.ServiceMonitor = some sm ∧ sm.Enabled = true) →
        ∀ s ∈ activeServices b,
          occurrences (Kind.ServiceMonitor, some s) (bs.map Builder.identity) = 1) ∧
      ((¬ ∃ m p sc sm, b.Instance.Spec.Metrics = some m ∧ m.Enabled = true ∧
            m.Prometheus = some p ∧ p.ScrapeConfig = some sc ∧
            sc.ServiceMonitor = some sm ∧ sm.Enabled = true) →
        ∀ x ∈ bs.map Builder.identity, x.1 ≠ Kind.ServiceMonitor) := by
  refine ⟨fun hl => (ResourceBuilders_ok_iff b).mpr hl, ?_⟩
  intro bs h
  rw [ResourceBuilders_ids b bs h, ← serviceMonitorEnabled_iff]
  have hmem : ∀ s, (Kind.ServiceMonitor, some s) ∈ builderIds b ↔
      s ∈ activeServices b ∧ serviceMonitorEnabled b = true := by
    intro s
    rw [mem_builderIds_loop_kind]
    simp
  refine ⟨hmem, ?_, ?_, ?_⟩
  · intro x hx hk
    obtain ⟨s, hs, hx2, _⟩ := builderIds_kind_service b x hx (by rw [hk]; decide)
    exact ⟨s, hs, hx2⟩
  · intro hmon s hs
    exact occurrences_eq_one _ _ (builderIds_nodup b) ((hmem s).mpr ⟨hs, hmon⟩)
  · intro hmon x hx hk
    obtain ⟨s, _, _, hx3⟩ := builderIds_kind_service b x hx (by rw [hk]; decide)
    rw [hk] at hx3
    exact hmon ((hmem s).mp hx3).2

/-- C14 at the cluster with the service monitor enabled: the scrape entry of worker is in
the output once. -/
theorem C14_service_monitor_witness :
    ∃ bs, ResourceBuilders clusterMesh = Except.ok bs ∧
      occurrences (Kind.ServiceMonitor, some ServiceName.WorkerService)
        (bs.map Builder.identity) = 1 :=
  ⟨_, rfl, ((C14_service_monitor clusterMesh).2 _ rfl).2.2.1
    ⟨_, _, _, _, rfl, rfl, rfl, rfl, rfl, rfl⟩ ServiceName.WorkerService (by decide)⟩

/-- C15: the output of `ResourceBuilders` holds mesh peer-authentication and mesh
traffic-routing entries exactly when the mTLS block is present and its provider is the
mesh provider; then it holds exactly one peer-authentication entry and one
traffic-routing entry per active service, the peer-authentication entry of a service
before its traffic-routing entry, and otherwise none. -/
theorem C15_mesh_entries (b : ClusterBuilder σ ε) (bs : List (Builder σ))
    (h : ResourceBuilders b = Except.ok bs) :
    (∀ s, (Kind.PeerAuthentication, some s) ∈ bs.map Builder.identity ↔
      s ∈ activeServices b ∧
        ∃ m, b.Instance.Spec.MTLS = some m ∧
          m.Provider = MTLSProvider.IstioMTLSProvider) ∧
    (∀ s, (Kind.DestinationRule, some s) ∈ bs.map Builder.identity ↔
      s ∈ activeServices b ∧
        ∃ m, b.Instance.Spec.MTLS = some m ∧
          m.Provider = MTLSProvider.IstioMTLSProvider) ∧
    (∀ x ∈ bs.map Builder.identity, x.1 ∈ meshKinds →
      ∃ s ∈ activeServices b, x.2 = some s) ∧
    ((∃ m, b.Instance.Spec.MTLS = some m ∧
        m.Provider = MTLSProvider.IstioMTLSProvider) →
      ∀ s ∈ activeServices b,
        occurrences (Kind.PeerAuthentication, some s) (bs.map Builder.identity) = 1 ∧
        occurrences (Kind.DestinationRule, some s) (bs.map Builder.identity) = 1) ∧
    (∀ (i j : Nat) (s : ServiceName),
      (bs.map Builder.identity)[i]? = some (Kind.PeerAuthentication, some s) →
      (bs.map Builder.identity)[j]? = some (Kind.DestinationRule, some s) → i < j) ∧
    ((¬ ∃ m, b.Instance.Spec.MTLS = some m ∧
        m.Provider = MTLSProvider.IstioMTLSProvider) →
      ∀ x ∈ bs.map Builder.identity, x.1 ∉ meshKinds) := by
  rw [ResourceBuilders_ids b bs h, ← istioEnabled_iff]
  have hpa : ∀ s, (Kind.PeerAuthentication, some s) ∈ builderIds b ↔
      s ∈ activeServices b ∧ istioEnabled b = true := by
    intro s
    rw [mem_builderIds_loop_kind]
    simp
  have hdr : ∀ s, (Kind.DestinationRule, some s) ∈ builderIds b ↔
      s ∈ activeServices b ∧ istioEnabled b = true := by
    intro s
    rw [mem_builderIds_loop_kind]
    simp
  have hkinds : ∀ k ∈ meshKinds,
      k ∈ [Kind.ServiceAccount, Kind.Deployment, Kind.HeadlessService,
        Kind.PeerAuthentication, Kind.DestinationRule, Kind.ServiceMonitor] := by
    decide
  refine ⟨hpa, hdr, ?_, ?_, ?_, ?_⟩
  · intro x hx hk
    obtain ⟨s, hs, hx2, _⟩ := builderIds_kind_service b x hx (hkinds _ hk)
    exact ⟨s, hs, hx2⟩
  · intro hmesh s hs
    exact ⟨occurrences_eq_one _ _ (builderIds_nodup b) ((hpa s).mpr ⟨hs, hmesh⟩),
      occurrences_eq_one _ _ (builderIds_nodup b) ((hdr s).mpr ⟨hs, hmesh⟩)⟩
  · intro i j s hi hj
    apply index_lt_of_rank_lt _ (builderIds_sorted b) i j _ _ hi hj
    simp only [rank, kindIndex]
    omega
  · intro hmesh x hx hk
    obtain ⟨s, _, _, hx3⟩ := builderIds_kind_service b x hx (hkinds _ hk)
    simp only [meshKinds, List.mem_cons, List.mem_singleton, List.not_mem_nil,
      or_false] at hk
    rcases hk with hk | hk
    · rw [hk] at hx3
      exact hmesh ((hpa s).mp hx3).2
    · rw [hk] at hx3
      exact hmesh ((hdr s).mp hx3).2

/-- C15 at the cluster with mesh mTLS: the peer-authentication and traffic-routing
entries of matching are in the output once each. -/
theorem C15_mesh_entries_witness :
    ∃ bs, ResourceBuilders clusterMesh = Except.ok bs ∧
      occurrences (Kind.PeerAuthentication, some ServiceName.MatchingService)
        (bs.map Builder.identity) = 1 ∧
      occurrences (Kind.DestinationRule, some ServiceName.MatchingService)
        (bs.map Builder.identity) = 1 :=
  ⟨_, rfl, (C15_mesh_entries clusterMesh _ rfl).2.2.2.1 ⟨_, rfl, rfl⟩
    ServiceName.MatchingService (by decide)⟩

/-- C16: the UI client certificate entry is in the output of `ResourceBuilders` exactly
when UI is present and enabled and the mTLS block is present with the
certificate-authority provider and its frontend scope enabled; the admin-tools client
certificate entry is in the output exactly when admin tools is present and enabled and
the same holds of mTLS. Neither condition reads the internode scope or the
internal-frontend block. -/
theorem C16_client_certificates (b : ClusterBuilder σ ε) (bs : List (Builder σ))
    (h : ResourceBuilders b = Except.ok bs) :
    ((Kind.UIFrontendClientCertificate, none) ∈ bs.map Builder.identity ↔
      (∃ u, b.Instance.Spec.UI = some u ∧ u.Enabled = true) ∧
        ∃ m, b.Instance.Spec.MTLS = some m ∧
          m.Provider = MTLSProvider.CertManagerMTLSProvider ∧ m.FrontendEnabled = true) ∧
    ((Kind.AdminToolsFrontendClientCertificate, none) ∈ bs.map Builder.identity ↔
      (∃ a, b.Instance.Spec.AdminTools = some a ∧ a.Enabled = true) ∧
        ∃ m, b.Instance.Spec.MTLS = some m ∧
          m.Provider = MTLSProvider.CertManagerMTLSProvider ∧ m.FrontendEnabled = true) := by
  rw [ResourceBuilders_ids b bs h, ← uiEnabled_iff, ← adminToolsEnabled_iff,
    ← caFrontend_iff, mem_builderIds_tail b _ rfl (by decide) (by decide),
    mem_builderIds_tail b _ rfl (by decide) (by decide)]
  unfold tailIdsOf
  constructor
  · simp [tailIds]
  · simp [tailIds]

/-- C16 at the cluster with UI enabled, admin tools disabled and certificate-authority
mTLS on the frontend scope: the UI client certificate is in the output, the admin-tools
client certificate is not. -/
theorem C16_client_certificates_witness :
    ∃ bs, ResourceBuilders clusterFull = Except.ok bs ∧
      (Kind.UIFrontendClientCertificate, none) ∈ bs.map Builder.identity ∧
      (Kind.AdminToolsFrontendClientCertificate, none) ∉ bs.map Builder.identity :=
  ⟨_, rfl,
    (C16_client_certificates clusterFull _ rfl).1.mpr
      ⟨⟨_, rfl, rfl⟩, ⟨_, rfl, rfl, rfl⟩⟩,
    fun hc => by
      have h2 := ((C16_client_certificates clusterFull _ rfl).2.mp hc).1
      obtain ⟨a, ha, he⟩ := h2
      have ha2 : a = ⟨false⟩ := (Option.some.inj ha).symm
      rw [ha2] at he
      cases he⟩

/-- C17: the output of `ResourcePruners` depends only on whether UI is enabled and whether
admin tools is enabled: two clusters that agree on these two facts have the same prune
list, whatever their other settings; and no certificate, mesh or scrape entry is ever in
the prune list, whose entries are UI workload, UI endpoint, UI ingress and admin-tools
workload only. -/
theorem C17_pruners_two_flags (b1 b2 : ClusterBuilder σ ε)
    (hui : (∃ u, b1.Instance.Spec.UI = some u ∧ u.Enabled = true) ↔
      (∃ u, b2.Instance.Spec.UI = some u ∧ u.Enabled = true))
    (hadm : (∃ a, b1.Instance.Spec.AdminTools = some a ∧ a.Enabled = true) ↔
      (∃ a, b2.Instance.Spec.AdminTools = some a ∧ a.Enabled = true)) :
    (ResourcePruners b1).map Builder.identity = (ResourcePruners b2).map Builder.identity ∧
    (∀ x ∈ (ResourcePruners b1).map Builder.identity,
      x ∈ [(Kind.UIDeployment, none), (Kind.UIService, none), (Kind.UIIngress, none),
        (Kind.AdminToolsDeployment, (none : Option ServiceName))] ∧
      x.1 ∉ certificateKinds ∧ x.1 ∉ meshKinds ∧ x.1 ≠ Kind.ServiceMonitor) := by
  rw [← uiEnabled_iff, ← uiEnabled_iff] at hui
  rw [← adminToolsEnabled_iff, ← adminToolsEnabled_iff] at hadm
  rw [ResourcePruners_ids, ResourcePruners_ids, Bool.eq_iff_iff.mpr hui,
    Bool.eq_iff_iff.mpr hadm]
  refine ⟨rfl, ?_⟩
  intro x hx
  simp only [pruneIds, List.mem_append, List.mem_ite_nil_left, List.mem_cons,
    List.mem_singleton, List.not_mem_nil, or_false] at hx
  rcases hx with ⟨_, rfl | rfl | rfl⟩ | ⟨_, rfl⟩ <;> decide

/-- C17 at the base cluster and the cluster with certificate-authority mTLS, both without
UI and admin tools: the prune lists are the same. -/
theorem C17_pruners_two_flags_witness :
    (ResourcePruners clusterBase).map Builder.identity
      = (ResourcePruners clusterCA).map Builder.identity :=
  (C17_pruners_two_flags clusterBase clusterCA
    ⟨fun ⟨_, hu, _⟩ => (nomatch hu), fun ⟨_, hu, _⟩ => (nomatch hu)⟩
    ⟨fun ⟨_, ha, _⟩ => (nomatch ha), fun ⟨_, ha, _⟩ => (nomatch ha)⟩).1

/-- C18: when UI is present and enabled but has no ingress sub-block, the UI ingress entry
is neither in the output of `ResourceBuilders` nor in the output of `ResourcePruners`. -/
theorem C18_ingress_neither_built_nor_pruned (b : ClusterBuilder σ ε) (u : UISpec)
    (bs : List (Builder σ))
    (hu : b.Instance.Spec.UI = some u) (he : u.Enabled = true) (hi : u.Ingress = none)
    (h : ResourceBuilders b = Except.ok bs) :
    (Kind.UIIngress, none) ∉ bs.map Builder.identity ∧
    (Kind.UIIngress, none) ∉ (ResourcePruners b).map Builder.identity := by
  have hui : uiEnabled b = true := (uiEnabled_iff b).mpr ⟨u, hu, he⟩
  have hing : uiIngressPresent b = false := by simp [uiIngressPresent, hu, hi]
  constructor
  · rw [ResourceBuilders_ids b bs h, mem_builderIds_tail b _ rfl (by decide) (by decide)]
    unfold tailIdsOf
    rw [hing]
    simp [tailIds]
  · rw [ResourcePruners_ids, hui]
    simp [pruneIds]

/-- C18 at the cluster with certificate-authority mTLS and UI enabled without ingress. -/
theorem C18_ingress_neither_built_nor_pruned_witness :
    ∃ bs, ResourceBuilders (withUI clusterCA (some ⟨true, none⟩)) = Except.ok bs ∧
      (Kind.UIIngress, none) ∉ bs.map Builder.identity ∧
      (Kind.UIIngress, none) ∉
        (ResourcePruners (withUI clusterCA (some ⟨true, none⟩))).map Builder.identity :=
  ⟨_, rfl, C18_ingress_neither_built_nor_pruned (withUI clusterCA (some ⟨true, none⟩))
    ⟨true, none⟩ _ rfl rfl rfl rfl⟩

/-- C19: the output of `ResourceBuilders` never holds both a mesh entry
(peer-authentication or traffic-routing) and a certificate entry (an issuer or
certificate of the chain, or a worker, UI or admin-tools client certificate); with the
mesh provider selected no certificate entry is emitted, whatever the scope flags, UI and
admin tools are. -/
theorem C19_mesh_certificate_exclusive (b : ClusterBuilder σ ε) (bs : List (Builder σ))
    (h : ResourceBuilders b = Except.ok bs) :
    ¬ ((∃ x ∈ bs.map Builder.identity, x.1 ∈ meshKinds) ∧
      (∃ y ∈ bs.map Builder.identity, y.1 ∈ certificateKinds)) ∧
    (∀ m, b.Instance.Spec.MTLS = some m →
      m.Provider = MTLSProvider.IstioMTLSProvider →
      ∀ y ∈ bs.map Builder.identity, y.1 ∉ certificateKinds) := by
  rw [ResourceBuilders_ids b bs h]
  have hmesh : ∀ x ∈ builderIds b, x.1 ∈ meshKinds → istioEnabled b = true := by
    intro x hx hk
    have hk2 : x.1 ∈ [Kind.ServiceAccount, Kind.Deployment, Kind.HeadlessService,
        Kind.PeerAuthentication, Kind.DestinationRule, Kind.ServiceMonitor] := by
      simp only [meshKinds, List.mem_cons, List.mem_singleton, List.not_mem_nil,
        or_false] at hk
      rcases hk with hk | hk <;> rw [hk] <;> decide
    obtain ⟨s, _, _, hx3⟩ := builderIds_kind_service b x hx hk2
    have hc := ((mem_builderIds_loop_kind b x.1 s).mp hx3).2
    simp only [meshKinds, List.mem_cons, List.mem_singleton, List.not_mem_nil,
      or_false] at hk
    rcases hc with hc | hc | hc | ⟨hi, _⟩ | ⟨_, hc⟩
    · rcases hk with hk | hk <;> rw [hk] at hc <;> cases hc
    · rcases hk with hk | hk <;> rw [hk] at hc <;> cases hc
    · rcases hk with hk | hk <;> rw [hk] at hc <;> cases hc
    · exact hi
    · rcases hk with hk | hk <;> rw [hk] at hc <;> cases hc
  constructor
  · rintro ⟨⟨x, hx, hxk⟩, ⟨y, hy, hyk⟩⟩
    have h1 := istio_not_certManager b (hmesh x hx hxk)
    have h2 := certificate_needs_certManager b y hy hyk
    rw [h1] at h2
    cases h2
  · intro m hm hp y hy hyk
    have h1 := istio_not_certManager b ((istioEnabled_iff b).mpr ⟨m, hm, hp⟩)
    have h2 := certificate_needs_certManager b y hy hyk
    rw [h1] at h2
    cases h2

/-- C19 at the cluster with the mesh provider, both scope flags set and UI and admin tools
enabled: the output holds mesh entries and no certificate entry. -/
theorem C19_mesh_certificate_exclusive_witness :
    ∃ bs, ResourceBuilders clusterMeshAll = Except.ok bs ∧
      (Kind.PeerAuthentication, some ServiceName.FrontendService)
        ∈ bs.map Builder.identity ∧
      ∀ y ∈ bs.map Builder.identity, y.1 ∉ certificateKinds :=
  ⟨_, rfl, by decide,
    (C19_mesh_certificate_exclusive clusterMeshAll _ rfl).2
      ⟨MTLSProvider.IstioMTLSProvider, true, true⟩ rfl rfl⟩

/-- C20: the length of the output of `ResourceBuilders` is
`2 + n*(3 + 2*mesh + mon) + dyn + ca*(3 + 3*inter + front*(3 + (1 - ifr)))
+ ui*(2 + ing + ca*front) + adm*(1 + ca*front)` with `n = 4 + ifr`, where each symbol is
1 when the feature is on in the cluster object and 0 otherwise: `mesh` the mTLS block
present with the mesh provider, `mon` metrics enabled with the prometheus, scrape-config
and service-monitor blocks present and the service-monitor flag true, `dyn` the
dynamic-config block present, `ca` the mTLS block present with the certificate-authority
provider, `inter` and `front` the internode and frontend scope of the mTLS block enabled,
`ifr` internal-frontend present and enabled, `ui` UI present and enabled, `ing` the
ingress sub-block of the UI block present, `adm` admin tools present and enabled; the
first two entries are shared configuration, then frontend endpoint. -/
theorem C20_output_length (b : ClusterBuilder σ ε) (bs : List (Builder σ))
    (mesh mon dyn ca inter front ifr ui ing adm : Bool)
    (h : ResourceBuilders b = Except.ok bs)
    (hmesh : mesh = true ↔
      ∃ m, b.Instance.Spec.MTLS = some m ∧ m.Provider = MTLSProvider.IstioMTLSProvider)
    (hmon : mon = true ↔
      ∃ m p sc sm, b.Instance.Spec.Metrics = some m ∧ m.Enabled = true ∧
        m.Prometheus = some p ∧ p.ScrapeConfig = some sc ∧
        sc.ServiceMonitor = some sm ∧ sm.Enabled = true)
    (hdyn : dyn = true ↔ ∃ d, b.Instance.Spec.DynamicConfig = some d)
    (hca : ca = true ↔
      ∃ m, b.Instance.Spec.MTLS = some m ∧
        m.Provider = MTLSProvider.CertManagerMTLSProvider)
    (hinter : inter = true ↔
      ∃ m, b.Instance.Spec.MTLS = some m ∧ m.InternodeEnabled = true)
    (hfront : front = true ↔
      ∃ m, b.Instance.Spec.MTLS = some m ∧ m.FrontendEnabled = true)
    (hifr : ifr = true ↔
      ∃ i, b.Instance.Spec.Services.InternalFrontend = some i ∧ i.Enabled = true)
    (hui : ui = true ↔ ∃ u, b.Instance.Spec.UI = some u ∧ u.Enabled = true)
    (hing : ing = true ↔ ∃ u g, b.Instance.Spec.UI = some u ∧ u.Ingress = some g)
    (hadm : adm = true ↔
      ∃ a, b.Instance.Spec.AdminTools = some a ∧ a.Enabled = true) :
    bs.length =
      2 + (4 + ifr.toNat) * (3 + 2 * mesh.toNat + mon.toNat)
        + dyn.toNat
        + ca.toNat * (3 + 3 * inter.toNat + front.toNat * (3 + (1 - ifr.toNat)))
        + ui.toNat * (2 + ing.toNat + ca.toNat * front.toNat)
        + adm.toNat * (1 + ca.toNat * front.toNat) ∧
    ∃ rest, bs.map Builder.identity =
      (Kind.Configmap, none) :: (Kind.FrontendService, none) :: rest := by
  have e1 : mesh = istioEnabled b :=
    Bool.eq_iff_iff.mpr (hmesh.trans (istioEnabled_iff b).symm)
  have e2 : mon = serviceMonitorEnabled b :=
    Bool.eq_iff_iff.mpr (hmon.trans (serviceMonitorEnabled_iff b).symm)
  have e3 : dyn = b.Instance.Spec.DynamicConfig.isSome :=
    Bool.eq_iff_iff.mpr (hdyn.trans (dynamicConfigPresent_iff b).symm)
  have e4 : ca = b.Instance.MTLSWithCertManagerEnabled :=
    Bool.eq_iff_iff.mpr (hca.trans (certManagerEnabled_iff b).symm)
  have e5 : inter = mtlsInternodeEnabled b :=
    Bool.eq_iff_iff.mpr (hinter.trans (mtlsInternodeEnabled_iff b).symm)
  have e6 : front = mtlsFrontendEnabled b :=
    Bool.eq_iff_iff.mpr (hfront.trans (mtlsFrontendEnabled_iff b).symm)
  have e7 : ifr = InternalFrontendServiceSpec.IsEnabled
      b.Instance.Spec.Services.InternalFrontend :=
    Bool.eq_iff_iff.mpr (hifr.trans (internalFrontendEnabled_iff b).symm)
  have e8 : ui = uiEnabled b :=
    Bool.eq_iff_iff.mpr (hui.trans (uiEnabled_iff b).symm)
  have e9 : ing = uiIngressPresent b :=
    Bool.eq_iff_iff.mpr (hing.trans (uiIngressPresent_iff b).symm)
  have e10 : adm = adminToolsEnabled b :=
    Bool.eq_iff_iff.mpr (hadm.trans (adminToolsEnabled_iff b).symm)
  rw [e1, e2, e3, e4, e5, e6, e7, e8, e9, e10]
  exact ResourceBuilders_length b bs h

/-- C20 at the cluster with internal frontend enabled, dynamic configuration,
certificate-authority mTLS on both scopes, UI with an ingress, admin tools disabled, no
metrics: 31 entries. -/
theorem C20_output_length_witness :
    ∃ bs, ResourceBuilders clusterFull = Except.ok bs ∧ bs.length = 31 ∧
      bs.length = 2 + (4 + 1) * (3 + 2 * 0 + 0) + 1 + 1 * (3 + 3 * 1 + 1 * (3 + (1 - 1)))
        + 1 * (2 + 1 + 1 * 1) + 0 * (1 + 1 * 1) :=
  ⟨_, rfl, rfl,
    (C20_output_length clusterFull _ false false true true true true true true true false
      rfl (istioEnabled_iff clusterFull) (serviceMonitorEnabled_iff clusterFull)
      (dynamicConfigPresent_iff clusterFull) (certManagerEnabled_iff clusterFull)
      (mtlsInternodeEnabled_iff clusterFull) (mtlsFrontendEnabled_iff clusterFull)
      (internalFrontendEnabled_iff clusterFull) (uiEnabled_iff clusterFull)
      (uiIngressPresent_iff clusterFull) (adminToolsEnabled_iff clusterFull)).1⟩

end Methods

end ResourceSet
